import Mathlib

/-!
Verification development for the live streaming handler
(`src/bot/handlers/live_streaming.py` of the claude-code telegram bot).

Python strings are modelled as `List Char` (sequences of unicode code
points).  The `re.findall` calls of `_extract_todos` are modelled by a
small backtracking engine that produces candidate matches in Python
preference order (alternation left first, greedy repetition longest
first, lazy repetition shortest first); the repetitions occurring in the
three source patterns all repeat a single character class, so the engine
specialises repetition to character classes.  The Telegram side effects
are modelled by an explicit `World` that holds the sent messages, a
success oracle deciding the outcome of each send/edit call, and a trace
of attempted sink operations.
-/

/-- Python strings, as lists of unicode code points. -/
abbrev Str := List Char

/-- Coerce a Lean string literal to `Str`. -/
def str (s : String) : Str := s.data

/-- Python whitespace for `\s` and `str.strip`: the ASCII whitespace
characters (unicode spaces beyond ASCII never occur in this development). -/
def isSpacePy (c : Char) : Bool :=
  c == ' ' || c == '\t' || c == '\n' || c == '\r' || c == '\x0b' || c == '\x0c'

/-- Python `\w`: word characters (ASCII range). -/
def isWordPy (c : Char) : Bool :=
  c.isAlphanum || c == '_'

/-- Python `\d`: decimal digits (ASCII range). -/
def isDigitPy (c : Char) : Bool :=
  c.isDigit

/-- Python `.` in a pattern without `re.DOTALL`: any character except a newline. -/
def isDotPy (c : Char) : Bool :=
  !(c == '\n')

/-- Python `str.strip()`: drop leading and trailing whitespace. -/
def pyStrip (l : Str) : Str :=
  ((l.dropWhile isSpacePy).reverse.dropWhile isSpacePy).reverse

/-- Python `str.lower()` (ASCII case mapping suffices here). -/
def pyLower (l : Str) : Str :=
  l.map Char.toLower

/-- Python `str.replace(old, "")` for a single-character `old`:
removes every occurrence of that character. -/
def removeChar (c : Char) (l : Str) : Str :=
  l.filter (fun d => !(d == c))

/-- Does `hay` start with `needle`? -/
def strStarts (needle hay : Str) : Bool :=
  match needle, hay with
  | [], _ => true
  | _ :: _, [] => false
  | n :: ns, h :: hs => n == h && strStarts ns hs

/-- Python `needle in hay` substring containment. -/
def strContains (hay needle : Str) : Bool :=
  match hay with
  | [] => strStarts needle []
  | _ :: rest => strStarts needle hay || strContains rest needle

/-! ## Regex engine

Matches are produced in Python backtracking preference order.  A result
of `matchRe r s` is a pair of the remaining suffix and the list of
captured groups, in document order.  The repetitions appearing in the
source patterns (`\s*`, `\d+`, `\w+`, `.+?`) all repeat a single
character class, so repetition is specialised to classes: a greedy class
star consumes `k, k-1, …, 0` leading class characters in that preference
order, a lazy class plus consumes `1, 2, …, k` leading class characters.
Capture groups in the source patterns never sit inside a repetition, so
repetition results carry no captures and `grp` captures the consumed
span. -/

inductive RE where
  | eps
  | chr (c : Char)
  | cls (p : Char → Bool)
  | seq (r1 r2 : RE)
  | alt (r1 r2 : RE)
  | starCls (p : Char → Bool)
  | plusLazyCls (p : Char → Bool)
  | grp (r : RE)
  | eolMult

/-- All candidate matches of `r` against a prefix of `s`, in Python
preference order; each result is (remaining suffix, captured groups). -/
def matchRe : RE → Str → List (Str × List Str)
  | .eps, s => [(s, [])]
  | .chr c, s =>
    match s with
    | [] => []
    | d :: rest => if d == c then [(rest, [])] else []
  | .cls p, s =>
    match s with
    | [] => []
    | d :: rest => if p d then [(rest, [])] else []
  | .seq r1 r2, s =>
    (matchRe r1 s).flatMap
      (fun p1 => (matchRe r2 p1.1).map (fun p2 => (p2.1, p1.2 ++ p2.2)))
  | .alt r1 r2, s => matchRe r1 s ++ matchRe r2 s
  | .starCls p, s =>
    let k := (s.takeWhile p).length
    (List.range (k + 1)).map (fun i => (s.drop (k - i), []))
  | .plusLazyCls p, s =>
    let k := (s.takeWhile p).length
    (List.range k).map (fun i => (s.drop (i + 1), []))
  | .grp r, s =>
    (matchRe r s).map (fun p => (p.1, [s.take (s.length - p.1.length)]))
  | .eolMult, s =>
    match s with
    | [] => [(s, [])]
    | d :: _ => if d == '\n' then [(s, [])] else []

/-- `re.findall` scanning, fuelled (structural recursion on the fuel so
that the function reduces definitionally): at each position take the
preferred match if any; resume after a nonempty match at its end, after
an empty match (or no match) one position further.  Every step strictly
shortens the string, so fuel `s.length + 1` is always sufficient. -/
def scanReF : Nat → RE → Str → List (List Str)
  | 0, _, _ => []
  | fuel + 1, r, s =>
    match s with
    | [] =>
      match (matchRe r []).head? with
      | some p => [p.2]
      | none => []
    | c :: rest =>
      match (matchRe r (c :: rest)).head? with
      | none => scanReF fuel r rest
      | some p =>
        if p.1.length < rest.length + 1 then p.2 :: scanReF fuel r p.1
        else p.2 :: scanReF fuel r rest

/-- `re.findall(pattern, s, re.MULTILINE)`, returning for each match the
list of its captured groups. -/
def findall (r : RE) (s : Str) : List (List Str) :=
  scanReF (s.length + 1) r s

/-! ## The three todo patterns of `_extract_todos` -/

/-- `[-*]\s*\[[ x]\]\s*(.+?)(?:\n|$)` (checkbox lines). -/
def checkboxPattern : RE :=
  .seq (.cls (fun c => c == '-' || c == '*'))
    (.seq (.starCls isSpacePy)
      (.seq (.chr '[')
        (.seq (.cls (fun c => c == ' ' || c == 'x'))
          (.seq (.chr ']')
            (.seq (.starCls isSpacePy)
              (.seq (.grp (.plusLazyCls isDotPy))
                (.alt (.chr '\n') .eolMult)))))))

/-- `\d+\.\s*(.+?)\s*\((\w+)\)` (numbered lines with a status word). -/
def numberedPattern : RE :=
  .seq (.cls isDigitPy)
    (.seq (.starCls isDigitPy)
      (.seq (.chr '.')
        (.seq (.starCls isSpacePy)
          (.seq (.grp (.plusLazyCls isDotPy))
            (.seq (.starCls isSpacePy)
              (.seq (.chr '(')
                (.seq (.grp (.seq (.cls isWordPy) (.starCls isWordPy)))
                  (.chr ')'))))))))

/-- `(?:⏳|🔄|✅)\s*(.+?)(?:\n|$)` (emoji-prefixed lines). -/
def emojiPattern : RE :=
  .seq (.alt (.chr '⏳') (.alt (.chr '🔄') (.chr '✅')))
    (.seq (.starCls isSpacePy)
      (.seq (.grp (.plusLazyCls isDotPy))
        (.alt (.chr '\n') .eolMult)))

/-- The pattern list of `_extract_todos`, in source order. -/
def todoPatterns : List RE :=
  [checkboxPattern, numberedPattern, emojiPattern]

/-! ## `_extract_todos` -/

/-- A todo item as built by `_extract_todos`: the dict
`{"content": …, "status": …}`. -/
structure TodoItem where
  content : Str
  status : Str
deriving DecidableEq, Repr

/-- Strip the three status glyphs, in the chained-`replace` order of the
source: `✅` first, then `🔄`, then `⏳`. -/
def removeStatusGlyphs (l : Str) : Str :=
  removeChar '⏳' (removeChar '🔄' (removeChar '✅' l))

/-- The loop body of `_extract_todos` applied to one `findall` match
(`gs` = the captured groups; a single-group pattern yields `[g]`, the
numbered pattern yields `[description, statusWord]`). -/
def processMatch (content : Str) (gs : List Str) : TodoItem :=
  let contentText := pyStrip (gs.headD [])
  let status0 : Str :=
    match gs with
    | _ :: g1 :: _ => g1
    | _ => str "pending"
  let status :=
    if contentText.contains '✅' || strContains (pyLower content) (str "[x]") then
      str "completed"
    else if contentText.contains '🔄' then
      str "in_progress"
    else status0
  ⟨pyStrip (removeStatusGlyphs contentText), status⟩

/-- `LiveStreamHandler._extract_todos`: run the three patterns in order
over the whole text and post-process every match. -/
def extract_todos (content : Str) : List TodoItem :=
  (todoPatterns.flatMap (fun p => findall p content)).map (processMatch content)

/-! ## The Telegram world: messages, sink calls, failure oracle

Each `bot.send_message` / `edit_text` / `edit_reply_markup` call may
raise; the oracle decides the outcome of the `n`-th sink call.  Every
attempted call is recorded in the trace together with its call site
(which logical message slot it serves), whether `parse_mode="Markdown"`
was passed, whether an inline keyboard (the cancel button) was passed,
its outcome, the `process_id` of the session issuing it, and the
targeted/created message id. -/

inductive Slot where
  | status
  | content
  | todo
  | error
deriving DecidableEq, Repr

inductive SinkAction where
  | send
  | edit
  | clearMarkup
deriving DecidableEq, Repr

/-- One attempted sink call. -/
structure OpLog where
  slot : Slot
  action : SinkAction
  md : Bool
  markup : Bool
  ok : Bool
  pid : Option Str
  target : Option Nat
deriving DecidableEq, Repr

/-- A Telegram message as far as this development observes it:
its current text and whether it currently carries an inline keyboard
(the cancel button). -/
structure MsgRec where
  text : Str
  markup : Bool
deriving DecidableEq, Repr

/-- The state of the external Message Sink. -/
structure World where
  oracle : Nat → Bool
  opCount : Nat := 0
  nextId : Nat := 0
  msgs : Nat → Option MsgRec := fun _ => none
  trace : List OpLog := []

/-- A fresh world with the given failure oracle. -/
def mkWorld (oracle : Nat → Bool) : World :=
  { oracle := oracle }

/-- `bot.send_message`: on success allocates a fresh message id. -/
def sendMsg (w : World) (sl : Slot) (pid : Option Str) (text : Str) (md markup : Bool) :
    Option Nat × World :=
  if w.oracle w.opCount then
    let i := w.nextId
    (some i,
      { w with
        opCount := w.opCount + 1
        nextId := w.nextId + 1
        msgs := fun k => if k = i then some ⟨text, markup⟩ else w.msgs k
        trace := w.trace ++ [⟨sl, .send, md, markup, true, pid, some i⟩] })
  else
    (none,
      { w with
        opCount := w.opCount + 1
        trace := w.trace ++ [⟨sl, .send, md, markup, false, pid, none⟩] })

/-- `Message.edit_text`: editing without passing `reply_markup`
(`markup = false`) removes an existing inline keyboard. -/
def editMsg (w : World) (sl : Slot) (pid : Option Str) (i : Nat) (text : Str) (md markup : Bool) :
    Bool × World :=
  if w.oracle w.opCount then
    (true,
      { w with
        opCount := w.opCount + 1
        msgs := fun k => if k = i then some ⟨text, markup⟩ else w.msgs k
        trace := w.trace ++ [⟨sl, .edit, md, markup, true, pid, some i⟩] })
  else
    (false,
      { w with
        opCount := w.opCount + 1
        trace := w.trace ++ [⟨sl, .edit, md, markup, false, pid, some i⟩] })

/-- `Message.edit_reply_markup(reply_markup=None)`: drop the keyboard. -/
def clearMarkupMsg (w : World) (sl : Slot) (pid : Option Str) (i : Nat) : Bool × World :=
  if w.oracle w.opCount then
    (true,
      { w with
        opCount := w.opCount + 1
        msgs := fun k => if k = i then (w.msgs i).map (fun r => { r with markup := false }) else w.msgs k
        trace := w.trace ++ [⟨sl, .clearMarkup, false, false, true, pid, some i⟩] })
  else
    (false,
      { w with
        opCount := w.opCount + 1
        trace := w.trace ++ [⟨sl, .clearMarkup, false, false, false, pid, some i⟩] })

/-! ## Python dicts as association lists (insertion order preserved) -/

/-- `d.get(k)` / `d[k]` lookup. -/
def dictGet (k : Str) : List (Str × α) → Option α
  | [] => none
  | (k1, v) :: rest => if k1 = k then some v else dictGet k rest

/-- `d[k] = v`: replace in place, or append a new entry. -/
def dictSet (k : Str) (v : α) : List (Str × α) → List (Str × α)
  | [] => [(k, v)]
  | (k1, v1) :: rest => if k1 = k then (k, v) :: rest else (k1, v1) :: dictSet k v rest

/-- `del d[k]`. -/
def dictRemove (k : Str) : List (Str × α) → List (Str × α)
  | [] => []
  | (k1, v1) :: rest => if k1 = k then rest else (k1, v1) :: dictRemove k rest

/-! ## `LiveStreamContext` and the handler state -/

/-- The per-session mutable state (`LiveStreamContext` dataclass). -/
structure LiveStreamContext where
  user_id : Nat
  chat_id : Nat
  original_message_id : Nat
  status_message : Option Nat := none
  content_message : Option Nat := none
  tool_messages : List (Str × Option Nat) := []
  todo_message : Option Nat := none
  current_todos : List TodoItem := []
  accumulated_content : Str := []
  last_update_time : ℚ := 0
  update_throttle : ℚ := 3 / 10
  cancel_requested : Bool := false
  process_id : Option Str := none
  tools_count : Nat := 0
  messages_sent : Nat := 0

/-- `LiveStreamHandler`: the session registry `active_streams`. -/
structure LiveStreamHandler where
  active_streams : List (Str × LiveStreamContext) := []

/-- Modelled from the spec: the `StreamUpdate` class is imported from
`src/claude/integration.py`, which is not among the sources; spec §6
fixes the payload fields per event kind (content → text fragment,
tool_call_batch → list of {name, invocationId}, tool_result →
{success, errorMessage?}, progress → {label, percentage?}, error →
{message}).  `isErrorFlag` models `update.is_error()`, `errorMessage`
models `update.get_error_message()` and `progressPercentage` models
`update.get_progress_percentage()`. -/
structure ToolCall where
  name : Option Str := none
  id : Option Str := none

/-- Modelled from the spec: one typed event from the upstream event
source (see `ToolCall` above for the provenance note). -/
structure StreamUpdate where
  type : Str
  content : Option Str := none
  tool_calls : Option (List ToolCall) := none
  isErrorFlag : Bool := false
  errorMessage : Option Str := none
  progressPercentage : Option Int := none

/-- Python truthiness of an optional string (`None` and `""` are falsy). -/
def truthyStr : Option Str → Bool
  | some s => !s.isEmpty
  | none => false

/-- Python truthiness of an optional list (`None` and `[]` are falsy). -/
def truthyCalls : Option (List ToolCall) → Bool
  | some cs => !cs.isEmpty
  | none => false

/-! ## Handler methods

Each method is a pure state transformer on `LiveStreamContext × World`.
A trailing `Bool` result models an exception escaping the method
(`True` = the Python call raises); methods whose body catches every
exception always return `false` there. -/

/-- `_update_status`: edit the status message; failures are caught and
only logged. -/
def update_status (ctx : LiveStreamContext) (w : World) (text : Str) :
    LiveStreamContext × World :=
  match ctx.status_message with
  | none => (ctx, w)
  | some i =>
    let r := editMsg w .status ctx.process_id i text true true
    (ctx, r.2)

/-- The truncation marker of `_update_content_message`. -/
def contentMarker : Str := str "\n\n_...response continues..._"

/-- Truncate the accumulated content at 4000 characters. -/
def truncateContent (acc : Str) : Str :=
  if acc.length > 4000 then acc.take 4000 ++ contentMarker else acc

/-- `_update_content_message`: edit or create the content message with
the markdown dialect; on failure retry the same operation once as plain
text (no parse mode, no keyboard); a second failure is only logged.
Note that `messages_sent` is incremented and the status message updated
only on the markdown creation path. -/
def update_content_message (ctx : LiveStreamContext) (w : World) :
    LiveStreamContext × World :=
  if ctx.accumulated_content.isEmpty then (ctx, w)
  else
    let content := truncateContent ctx.accumulated_content
    match ctx.content_message with
    | some i =>
      let r := editMsg w .content ctx.process_id i content true true
      if r.1 then (ctx, r.2)
      else
        let r2 := editMsg r.2 .content ctx.process_id i content false false
        (ctx, r2.2)
    | none =>
      let r := sendMsg w .content ctx.process_id content true true
      match r.1 with
      | some i =>
        let ctx1 := { ctx with content_message := some i, messages_sent := ctx.messages_sent + 1 }
        update_status ctx1 r.2 (str "💬 **Streaming response...**")
      | none =>
        let r2 := sendMsg r.2 .content ctx.process_id content false false
        match r2.1 with
        | some i => ({ ctx with content_message := some i }, r2.2)
        | none => (ctx, r2.2)

/-- The status glyph used when rendering one todo item
(`{"pending": "⏳", "in_progress": "🔄", "completed": "✅"}.get(status, "📌")`). -/
def statusIcon (st : Str) : Str :=
  if st = str "pending" then str "⏳"
  else if st = str "in_progress" then str "🔄"
  else if st = str "completed" then str "✅"
  else str "📌"

/-- One rendered line of the todo list: `f"{status_icon} {content}\n"`. -/
def todoLine (t : TodoItem) : Str :=
  statusIcon t.status ++ str " " ++ t.content ++ str "\n"

/-- The full text of the todo message. -/
def renderTodoText (todos : List TodoItem) : Str :=
  str "📋 **Claude's Task List:**\n\n" ++ todos.flatMap todoLine

/-- `_update_todo_display`: edit the todo message (failures caught and
logged) or create it (a send failure is NOT caught here and raises). -/
def update_todo_display (ctx : LiveStreamContext) (w : World) (todos : List TodoItem) :
    LiveStreamContext × World × Bool :=
  if todos.isEmpty then (ctx, w, false)
  else
    let todoText := renderTodoText todos
    match ctx.todo_message with
    | some i =>
      let r := editMsg w .todo ctx.process_id i todoText true true
      (ctx, r.2, false)
    | none =>
      let r := sendMsg w .todo ctx.process_id todoText true true
      match r.1 with
      | some i =>
        ({ ctx with todo_message := some i, messages_sent := ctx.messages_sent + 1 }, r.2, false)
      | none => (ctx, r.2, true)

/-- The throttle decision of `_handle_assistant_message` (lines 157-164):
`time_since_update >= update_throttle or content_length % 200 == 0`. -/
def shouldUpdateDecision (ctx : LiveStreamContext) (now : ℚ) (contentLength : Nat) : Bool :=
  decide (now - ctx.last_update_time ≥ ctx.update_throttle) || contentLength % 200 == 0

/-- `_handle_assistant_message`: accumulate the delta, re-extract todos
from the whole buffer and upsert the todo message when the nonempty
result differs from the snapshot, then evaluate the throttle and upsert
the content message, stamping `last_update_time` only when it fired.
`now` models the `time.time()` call. -/
def handle_assistant_message (ctx : LiveStreamContext) (w : World) (delta : Option Str) (now : ℚ) :
    LiveStreamContext × World × Bool :=
  match delta with
  | none => (ctx, w, false)
  | some d =>
    if d.isEmpty then (ctx, w, false)
    else
      let ctx1 := { ctx with accumulated_content := ctx.accumulated_content ++ d }
      let todos := extract_todos ctx1.accumulated_content
      let step :=
        if todos ≠ [] ∧ todos ≠ ctx1.current_todos then
          update_todo_display { ctx1 with current_todos := todos } w todos
        else (ctx1, w, false)
      if step.2.2 then step
      else
        let ctx2 := step.1
        let w2 := step.2.1
        if shouldUpdateDecision ctx2 now ctx2.accumulated_content.length then
          let r := update_content_message ctx2 w2
          ({ r.1 with last_update_time := now }, r.2, false)
        else (ctx2, w2, false)

/-- `_get_tool_emoji`: the lookup table with default `🔧`. -/
def get_tool_emoji (toolName : Str) : Str :=
  if toolName = str "Read" then str "📖"
  else if toolName = str "Write" then str "✍️"
  else if toolName = str "Edit" then str "📝"
  else if toolName = str "Bash" then str "⚡"
  else if toolName = str "Glob" then str "🔍"
  else if toolName = str "Grep" then str "🔎"
  else if toolName = str "Task" then str "🎯"
  else if toolName = str "WebFetch" then str "🌐"
  else if toolName = str "WebSearch" then str "🔍"
  else str "🔧"

/-- `", ".join(names)`. -/
def joinComma : List Str → Str
  | [] => []
  | [x] => x
  | x :: y :: rest => x ++ str ", " ++ joinComma (y :: rest)

/-- `str(n)` for the tool-id default. -/
def natToStr (n : Nat) : Str := (toString n).data

/-- The loop body of `_handle_tool_calls` folded over the batch. -/
def toolCallStep (acc : List Str × LiveStreamContext) (tc : ToolCall) :
    List Str × LiveStreamContext :=
  let toolName := tc.name.getD (str "Unknown")
  let toolId := tc.id.getD (natToStr acc.2.tools_count)
  (acc.1 ++ [get_tool_emoji toolName ++ str " " ++ toolName],
   { acc.2 with
     tool_messages := dictSet toolId none acc.2.tool_messages
     tools_count := acc.2.tools_count + 1 })

/-- `_handle_tool_calls`: record the batch in the tool map and counters,
then update the status message with one joined summary line. -/
def handle_tool_calls (ctx : LiveStreamContext) (w : World) (calls : Option (List ToolCall)) :
    LiveStreamContext × World × Bool :=
  match calls with
  | none => (ctx, w, false)
  | some cs =>
    if cs.isEmpty then (ctx, w, false)
    else
      let folded := cs.foldl toolCallStep ([], ctx)
      if folded.1.isEmpty then (folded.2, w, false)
      else
        let r := update_status folded.2 w
          (str "🔧 **Using tools:** " ++ joinComma folded.1 ++ str "\n\n_Working..._")
        (r.1, r.2, false)

/-- `update.get_error_message() or <default>`. -/
def errMsgOrDefault (u : StreamUpdate) (deflt : Str) : Str :=
  match u.errorMessage with
  | some m => if m.isEmpty then deflt else m
  | none => deflt

/-- `_handle_tool_result`: only failed results update the status. -/
def handle_tool_result (ctx : LiveStreamContext) (w : World) (u : StreamUpdate) :
    LiveStreamContext × World × Bool :=
  if u.isErrorFlag then
    let r := update_status ctx w (str "⚠️ **Tool error:** " ++ errMsgOrDefault u (str "None"))
    (r.1, r.2, false)
  else (ctx, w, false)

/-- The 10-segment progress bar: `int(percentage / 10)` filled blocks
(Python `int()` truncates toward zero; a negative count repeats zero
times). -/
def progressBar (p : Int) : Str :=
  List.replicate (Int.tdiv p 10).toNat '█' ++ List.replicate (10 - Int.tdiv p 10).toNat '░'

/-- `str(p)` for the percentage display. -/
def intToStr (p : Int) : Str := (toString p).data

/-- `_handle_progress`: status render with an optional bar. -/
def handle_progress (ctx : LiveStreamContext) (w : World) (u : StreamUpdate) :
    LiveStreamContext × World × Bool :=
  let progressText :=
    match u.content with
    | some m => if m.isEmpty then str "Working..." else m
    | none => str "Working..."
  let base := str "🔄 **" ++ progressText ++ str "**"
  let text :=
    match u.progressPercentage with
    | none => base
    | some p => base ++ str "\n\n`" ++ progressBar p ++ str "` " ++ intToStr p ++ str "%"
  let r := update_status ctx w text
  (r.1, r.2, false)

/-- `_handle_error`: always a NEW message; the send is not wrapped in a
local try, so its failure raises (to be caught by `handle_update`). -/
def handle_error (ctx : LiveStreamContext) (w : World) (u : StreamUpdate) :
    LiveStreamContext × World × Bool :=
  let msg := errMsgOrDefault u (str "An error occurred")
  let r := sendMsg w .error ctx.process_id (str "❌ **Error**\n\n" ++ msg) true false
  match r.1 with
  | some _ => ({ ctx with messages_sent := ctx.messages_sent + 1 }, r.2, false)
  | none => (ctx, r.2, true)

/-- The event routing of `handle_update` (the `try` body). -/
def dispatchUpdate (ctx : LiveStreamContext) (w : World) (u : StreamUpdate) (now : ℚ) :
    LiveStreamContext × World × Bool :=
  if u.type = str "assistant" && truthyStr u.content then
    handle_assistant_message ctx w u.content now
  else if u.type = str "assistant" && truthyCalls u.tool_calls then
    handle_tool_calls ctx w u.tool_calls
  else if u.type = str "tool_result" then handle_tool_result ctx w u
  else if u.type = str "progress" then handle_progress ctx w u
  else if u.type = str "error" then handle_error ctx w u
  else (ctx, w, false)

/-- `handle_update`: resolve the session (unknown ids are logged
no-ops), drop the event when cancellation was requested, otherwise
dispatch; any exception from the dispatch is caught here and logged.
The returned `Bool` reports whether that `except` branch ran. -/
def handle_update (h : LiveStreamHandler) (pid : Str) (u : StreamUpdate) (now : ℚ) (w : World) :
    LiveStreamHandler × World × Bool :=
  match dictGet pid h.active_streams with
  | none => (h, w, false)
  | some ctx =>
    if ctx.cancel_requested then (h, w, false)
    else
      let r := dispatchUpdate ctx w u now
      (⟨dictSet pid r.1 h.active_streams⟩, r.2.1, r.2.2)

/-- `start_stream`: create the context, send the initial status message
with the cancel keyboard, register the session.  If the send raises the
session is not registered and the exception escapes (`none` result). -/
def start_stream (h : LiveStreamHandler) (w : World) (uid cid mid : Nat) (pid : Str) :
    LiveStreamHandler × World × Option LiveStreamContext :=
  let r := sendMsg w .status (some pid) (str "🤖 **Claude is starting...**") true true
  match r.1 with
  | none => (h, r.2, none)
  | some i =>
    let ctx : LiveStreamContext :=
      { user_id := uid, chat_id := cid, original_message_id := mid,
        process_id := some pid, status_message := some i }
    (⟨dictSet pid ctx h.active_streams⟩, r.2, some ctx)

/-- The terminal status text of `finalize_stream`. -/
def finishText (is_error : Bool) : Str :=
  (if is_error then str "❌" else str "✅") ++ str " **Claude finished**"

/-- The per-session body of `finalize_stream`: one last unthrottled
content render when the buffer is nonempty, then best-effort removal of
the cancel keyboards (content via `edit_reply_markup(None)`, status via
the terminal `edit_text` without `reply_markup`, todo via
`edit_reply_markup(None)`); all three strips swallow failures. -/
def finalize_ctx (ctx : LiveStreamContext) (w : World) (is_error : Bool) :
    LiveStreamContext × World :=
  let s1 :=
    if !ctx.accumulated_content.isEmpty then update_content_message ctx w else (ctx, w)
  let ctx1 := s1.1
  let w2 :=
    match ctx1.content_message with
    | some i => (clearMarkupMsg s1.2 .content ctx1.process_id i).2
    | none => s1.2
  let w3 :=
    match ctx1.status_message with
    | some i => (editMsg w2 .status ctx1.process_id i (finishText is_error) true false).2
    | none => w2
  let w4 :=
    match ctx1.todo_message with
    | some i => (clearMarkupMsg w3 .todo ctx1.process_id i).2
    | none => w3
  (ctx1, w4)

/-- The keyboard-strip tail of `finalize_ctx` in isolation: the world
after the three best-effort clear/edit/clear operations. -/
def finalizeTail (ctx1 : LiveStreamContext) (w1 : World) (is_error : Bool) : World :=
  let w2 :=
    match ctx1.content_message with
    | some i => (clearMarkupMsg w1 .content ctx1.process_id i).2
    | none => w1
  let w3 :=
    match ctx1.status_message with
    | some i => (editMsg w2 .status ctx1.process_id i (finishText is_error) true false).2
    | none => w2
  match ctx1.todo_message with
  | some i => (clearMarkupMsg w3 .todo ctx1.process_id i).2
  | none => w3

/-- `finalize_stream`: unknown ids are no-ops; otherwise run the
per-session finalization and delete the session from the registry.
(The `final_message` parameter is unused — faithfully to the source.) -/
def finalize_stream (h : LiveStreamHandler) (w : World) (pid : Str)
    (_final_message : Str) (is_error : Bool) : LiveStreamHandler × World :=
  match dictGet pid h.active_streams with
  | none => (h, w)
  | some ctx =>
    let r := finalize_ctx ctx w is_error
    (⟨dictRemove pid h.active_streams⟩, r.2)

/-- `request_cancel`: set the cooperative flag; report whether a live
session was found. -/
def request_cancel (h : LiveStreamHandler) (pid : Str) : Bool × LiveStreamHandler :=
  match dictGet pid h.active_streams with
  | none => (false, h)
  | some ctx =>
    (true, ⟨dictSet pid { ctx with cancel_requested := true } h.active_streams⟩)

/-- `is_cancelled`. -/
def is_cancelled (h : LiveStreamHandler) (pid : Str) : Bool :=
  match dictGet pid h.active_streams with
  | none => false
  | some ctx => ctx.cancel_requested

/-! ## Whole-lifetime runs over the public surface -/

/-- One call to the public surface of the handler. -/
inductive HandlerAction where
  | start (uid cid mid : Nat) (pid : Str)
  | event (pid : Str) (u : StreamUpdate) (now : ℚ)
  | finalize (pid : Str) (final_message : Str) (is_error : Bool)
  | cancel (pid : Str)

/-- Apply one public call to the handler-and-world state. -/
def applyAction (st : LiveStreamHandler × World) : HandlerAction → LiveStreamHandler × World
  | .start uid cid mid pid =>
    let r := start_stream st.1 st.2 uid cid mid pid
    (r.1, r.2.1)
  | .event pid u now =>
    let r := handle_update st.1 pid u now st.2
    (r.1, r.2.1)
  | .finalize pid fm isErr => finalize_stream st.1 st.2 pid fm isErr
  | .cancel pid => ((request_cancel st.1 pid).2, st.2)

/-- Run a sequence of public calls. -/
def runActions (st : LiveStreamHandler × World) (as : List HandlerAction) :
    LiveStreamHandler × World :=
  as.foldl applyAction st

/-! ## Trace observations -/

/-- The sink calls attempted after the moment `w` was the world. -/
def opsSince (w wNew : World) : List OpLog :=
  wNew.trace.drop w.trace.length

/-- Ops serving a given slot. -/
def slotOps (sl : Slot) (tr : List OpLog) : List OpLog :=
  tr.filter (fun o => o.slot == sl)

/-- A successful message creation for a slot, attributed to a session. -/
def isCreateOp (sl : Slot) (p : Str) (o : OpLog) : Bool :=
  o.slot == sl && o.action == SinkAction.send && o.ok && o.pid == some p

/-- How many messages a session successfully created for a slot. -/
def createCount (tr : List OpLog) (sl : Slot) (p : Str) : Nat :=
  (tr.filter (isCreateOp sl p)).length

/-- The keys of a registry, in order. -/
def dictKeys (l : List (Str × α)) : List Str :=
  l.map Prod.fst

/-- Number of sink calls serving a slot. -/
def countSlot (sl : Slot) (tr : List OpLog) : Nat :=
  (slotOps sl tr).length

/-- Does the text contain one of the three status glyphs? -/
def hasStatusGlyph (l : Str) : Bool :=
  l.contains '⏳' || l.contains '🔄' || l.contains '✅'

/-- The session is either unknown to the registry or flagged as
cancelled: the state from which `handle_update` drops every event. -/
def cancelledOrGone (h : LiveStreamHandler) (pid : Str) : Prop :=
  match dictGet pid h.active_streams with
  | none => True
  | some ctx => ctx.cancel_requested = true

/-- Is this public call a `start_stream` for the given session id? -/
def startsSession (pid : Str) : HandlerAction → Bool
  | .start _ _ _ q => q == pid
  | _ => false

/-- How many `start_stream` calls for this id a run contains. -/
def startCount (pid : Str) (as : List HandlerAction) : Nat :=
  (as.filter (startsSession pid)).length

/-- A send or edit serving a slot (a render, as opposed to a
keyboard-strip `clearMarkup`). -/
def isRenderOp (sl : Slot) (o : OpLog) : Bool :=
  o.slot == sl && (o.action == SinkAction.send || o.action == SinkAction.edit)

/-- Number of renders (sends/edits) of a slot in a trace. -/
def renderCount (sl : Slot) (tr : List OpLog) : Nat :=
  (tr.filter (isRenderOp sl)).length

/-- Every registered session is tagged with its own registry key
(`start_stream` sets `process_id` to the key it registers under). -/
def registryTagged (h : LiveStreamHandler) : Prop :=
  ∀ q ctx, dictGet q h.active_streams = some ctx → ctx.process_id = some q

/-- The creation counts of a session agree with its slot occupancy
while it is registered, and are at most one once it is gone. -/
def countsMatch (p : Str) (st : LiveStreamHandler × World) : Prop :=
  match dictGet p st.1.active_streams with
  | some ctx =>
    createCount st.2.trace .status p = (if ctx.status_message.isSome then 1 else 0) ∧
    createCount st.2.trace .content p = (if ctx.content_message.isSome then 1 else 0) ∧
    createCount st.2.trace .todo p = (if ctx.todo_message.isSome then 1 else 0)
  | none =>
    createCount st.2.trace .status p ≤ 1 ∧
    createCount st.2.trace .content p ≤ 1 ∧
    createCount st.2.trace .todo p ≤ 1

/-- A session id that was never started: unregistered, no creations. -/
def zeroCounts (p : Str) (st : LiveStreamHandler × World) : Prop :=
  dictGet p st.1.active_streams = none ∧
  createCount st.2.trace .status p = 0 ∧
  createCount st.2.trace .content p = 0 ∧
  createCount st.2.trace .todo p = 0

/-! ## Association-list lemmas

A Python dict cannot bind the same key twice, so registries reachable
through the handler have nodup keys; lemmas about deletion assume it. -/

theorem dictGet_dictSet_self (k : Str) (v : α) (l : List (Str × α)) :
    dictGet k (dictSet k v l) = some v := by
  induction l with
  | nil => simp [dictGet, dictSet]
  | cons hd tl ih =>
    obtain ⟨k2, v2⟩ := hd
    by_cases hk : k2 = k
    · simp [dictGet, dictSet, hk]
    · simp [dictGet, dictSet, hk, ih]

theorem dictGet_dictSet_ne (k k1 : Str) (v : α) (l : List (Str × α)) (hne : k1 ≠ k) :
    dictGet k (dictSet k1 v l) = dictGet k l := by
  induction l with
  | nil => simp [dictGet, dictSet, hne]
  | cons hd tl ih =>
    obtain ⟨k2, v2⟩ := hd
    by_cases hk : k2 = k1
    · have hne2 : ¬(k2 = k) := fun h => hne (hk.symm.trans h)
      have hne3 : ¬(k1 = k) := hne
      simp [dictGet, dictSet, hk, hne2, hne3]
    · by_cases hk2 : k2 = k
      · have hne4 : ¬(k = k1) := fun h => hne h.symm
        simp [dictGet, dictSet, hk, hk2, hne4]
      · simp [dictGet, dictSet, hk, hk2, ih]

theorem dictGet_dictRemove_self (k : Str) (l : List (Str × α))
    (hnd : (dictKeys l).Nodup) : dictGet k (dictRemove k l) = none := by
  induction l with
  | nil => simp [dictGet, dictRemove]
  | cons hd tl ih =>
    obtain ⟨k2, v2⟩ := hd
    simp only [dictKeys, List.map_cons, List.nodup_cons] at hnd
    by_cases hk : k2 = k
    · subst hk
      simp only [dictRemove, if_pos rfl]
      have hout : ∀ (tl2 : List (Str × α)), k2 ∉ tl2.map Prod.fst → dictGet k2 tl2 = none := by
        intro tl2
        induction tl2 with
        | nil => intro _; simp [dictGet]
        | cons hd3 tl3 ih3 =>
          intro hni
          obtain ⟨k3, v3⟩ := hd3
          simp only [List.map_cons, List.mem_cons] at hni
          push_neg at hni
          have hne3 : ¬k3 = k2 := fun h => hni.1 h.symm
          simp [dictGet, hne3, ih3 hni.2]
      exact hout tl hnd.1
    · simp [dictRemove, dictGet, hk, ih hnd.2]

theorem dictGet_dictRemove_ne (k k1 : Str) (l : List (Str × α)) (hne : k1 ≠ k) :
    dictGet k (dictRemove k1 l) = dictGet k l := by
  induction l with
  | nil => simp [dictGet, dictRemove]
  | cons hd tl ih =>
    obtain ⟨k2, v2⟩ := hd
    by_cases hk : k2 = k1
    · have hne2 : ¬(k2 = k) := fun h => hne (hk.symm.trans h)
      have hne3 : ¬(k1 = k) := hne
      simp [dictRemove, dictGet, hk, hne2, hne3]
    · by_cases hk2 : k2 = k
      · have hne4 : ¬(k = k1) := fun h => hne h.symm
        simp [dictRemove, dictGet, hk, hk2, hne4]
      · simp [dictRemove, dictGet, hk, hk2, ih]

theorem dictKeys_dictSet_of_mem (k : Str) (v : α) (l : List (Str × α))
    (hmem : k ∈ dictKeys l) : dictKeys (dictSet k v l) = dictKeys l := by
  induction l with
  | nil => simp [dictKeys] at hmem
  | cons hd tl ih =>
    obtain ⟨k2, v2⟩ := hd
    by_cases hk : k2 = k
    · simp [dictSet, dictKeys, hk]
    · have hmem2 : k ∈ dictKeys tl := by
        have : k ∈ k2 :: dictKeys tl := hmem
        rcases List.mem_cons.mp this with h | h
        · exact absurd h.symm hk
        · exact h
      simp only [dictSet, if_neg hk, dictKeys, List.map_cons]
      exact congrArg (k2 :: ·) (ih hmem2)

theorem dictKeys_dictSet_of_not_mem (k : Str) (v : α) (l : List (Str × α))
    (hmem : k ∉ dictKeys l) : dictKeys (dictSet k v l) = dictKeys l ++ [k] := by
  induction l with
  | nil => simp [dictKeys, dictSet]
  | cons hd tl ih =>
    obtain ⟨k2, v2⟩ := hd
    have hk : ¬k2 = k := by
      intro heq
      exact hmem (show k ∈ k2 :: dictKeys tl from heq ▸ List.mem_cons_self _ _)
    have hmem2 : k ∉ dictKeys tl := by
      intro h
      exact hmem (show k ∈ k2 :: dictKeys tl from List.mem_cons_of_mem _ h)
    simp only [dictSet, if_neg hk, dictKeys, List.map_cons, List.cons_append]
    exact congrArg (k2 :: ·) (ih hmem2)

theorem nodup_dictKeys_dictSet (k : Str) (v : α) (l : List (Str × α))
    (hnd : (dictKeys l).Nodup) : (dictKeys (dictSet k v l)).Nodup := by
  by_cases hmem : k ∈ dictKeys l
  · rw [dictKeys_dictSet_of_mem k v l hmem]; exact hnd
  · rw [dictKeys_dictSet_of_not_mem k v l hmem]
    simpa [List.nodup_append] using ⟨hnd, fun hx => hmem hx⟩

theorem dictKeys_dictRemove_sublist (k : Str) (l : List (Str × α)) :
    (dictKeys (dictRemove k l)).Sublist (dictKeys l) := by
  induction l with
  | nil => exact List.Sublist.refl _
  | cons hd tl ih =>
    obtain ⟨k2, v2⟩ := hd
    by_cases hk : k2 = k
    · simp only [dictRemove, if_pos hk, dictKeys, List.map_cons]
      exact List.sublist_cons_self _ _
    · simp only [dictRemove, if_neg hk, dictKeys, List.map_cons]
      exact ih.cons₂ _

theorem nodup_dictKeys_dictRemove (k : Str) (l : List (Str × α))
    (hnd : (dictKeys l).Nodup) : (dictKeys (dictRemove k l)).Nodup :=
  (dictKeys_dictRemove_sublist k l).nodup hnd

/-! ## Registry-shape lemmas for runs over the public surface -/

theorem handle_update_cancelledOrGone (h : LiveStreamHandler) (w : World) (pid : Str)
    (u : StreamUpdate) (now : ℚ) (hc : cancelledOrGone h pid) :
    handle_update h pid u now w = (h, w, false) := by
  unfold cancelledOrGone at hc
  unfold handle_update
  cases hget : dictGet pid h.active_streams with
  | none => simp
  | some ctx =>
    rw [hget] at hc
    simp [hc]

theorem nodup_applyAction (st : LiveStreamHandler × World) (a : HandlerAction)
    (hnd : (dictKeys st.1.active_streams).Nodup) :
    (dictKeys (applyAction st a).1.active_streams).Nodup := by
  cases a with
  | start uid cid mid q =>
    by_cases ho : st.2.oracle st.2.opCount <;>
      simp [applyAction, start_stream, sendMsg, ho] <;>
      first
        | exact nodup_dictKeys_dictSet _ _ _ hnd
        | exact hnd
  | event q u now =>
    cases hget : dictGet q st.1.active_streams with
    | none => simpa [applyAction, handle_update, hget] using hnd
    | some ctx =>
      by_cases hflag : ctx.cancel_requested <;>
        simp [applyAction, handle_update, hget, hflag]
      · exact hnd
      · exact nodup_dictKeys_dictSet _ _ _ hnd
  | finalize q fm ie =>
    cases hget : dictGet q st.1.active_streams with
    | none => simpa [applyAction, finalize_stream, hget] using hnd
    | some ctx =>
      simp [applyAction, finalize_stream, hget]
      exact nodup_dictKeys_dictRemove _ _ hnd
  | cancel q =>
    cases hget : dictGet q st.1.active_streams with
    | none => simpa [applyAction, request_cancel, hget] using hnd
    | some ctx =>
      simp [applyAction, request_cancel, hget]
      exact nodup_dictKeys_dictSet _ _ _ hnd

theorem cancelledOrGone_applyAction (st : LiveStreamHandler × World) (a : HandlerAction)
    (pid : Str) (hnd : (dictKeys st.1.active_streams).Nodup)
    (hns : startsSession pid a = false) (hc : cancelledOrGone st.1 pid) :
    cancelledOrGone (applyAction st a).1 pid := by
  cases a with
  | start uid cid mid q =>
    have hq : q ≠ pid := by
      intro heq
      simp [startsSession, heq] at hns
    by_cases ho : st.2.oracle st.2.opCount <;>
      simp [applyAction, start_stream, sendMsg, ho]
    · unfold cancelledOrGone at hc ⊢
      rwa [dictGet_dictSet_ne _ _ _ _ hq]
    · exact hc
  | event q u now =>
    cases hget : dictGet q st.1.active_streams with
    | none => simpa [applyAction, handle_update, hget] using hc
    | some ctx =>
      by_cases hflag : ctx.cancel_requested
      · simpa [applyAction, handle_update, hget, hflag] using hc
      · by_cases hq : q = pid
        · subst hq
          unfold cancelledOrGone at hc
          rw [hget] at hc
          exact absurd hc hflag
        · simp only [applyAction, handle_update, hget, if_neg hflag]
          unfold cancelledOrGone at hc ⊢
          rwa [dictGet_dictSet_ne _ _ _ _ hq]
  | finalize q fm ie =>
    cases hget : dictGet q st.1.active_streams with
    | none => simpa [applyAction, finalize_stream, hget] using hc
    | some ctx =>
      simp only [applyAction, finalize_stream, hget]
      by_cases hq : q = pid
      · subst hq
        unfold cancelledOrGone
        rw [dictGet_dictRemove_self _ _ hnd]
        trivial
      · unfold cancelledOrGone at hc ⊢
        rwa [dictGet_dictRemove_ne _ _ _ hq]
  | cancel q =>
    cases hget : dictGet q st.1.active_streams with
    | none => simpa [applyAction, request_cancel, hget] using hc
    | some ctx =>
      simp only [applyAction, request_cancel, hget]
      by_cases hq : q = pid
      · subst hq
        unfold cancelledOrGone
        rw [dictGet_dictSet_self]
      · unfold cancelledOrGone at hc ⊢
        rwa [dictGet_dictSet_ne _ _ _ _ hq]

theorem runActions_cancelledOrGone (as : List HandlerAction) (st : LiveStreamHandler × World)
    (pid : Str) (hnd : (dictKeys st.1.active_streams).Nodup)
    (hns : ∀ a ∈ as, startsSession pid a = false) (hc : cancelledOrGone st.1 pid) :
    cancelledOrGone (runActions st as).1 pid := by
  induction as generalizing st with
  | nil => simpa [runActions] using hc
  | cons a rest ih =>
    have h1 : runActions st (a :: rest) = runActions (applyAction st a) rest := rfl
    rw [h1]
    exact ih (applyAction st a)
      (nodup_applyAction st a hnd)
      (fun b hb => hns b (List.mem_cons_of_mem _ hb))
      (cancelledOrGone_applyAction st a pid hnd (hns a (List.mem_cons_self _ _)) hc)

/-! ## C8: cancellation monotonicity -/

/-- C8: after `request_cancel` has returned `true` for a session, every
subsequent `handle_update` call for that id — after any further public
calls that do not start a fresh session under the same id — returns the
handler, the world (hence the sink trace) and the logged-error flag
unchanged: the event is silently dropped with zero Message Sink calls
and no session-state change. -/
theorem cancel_monotone_no_sink (h : LiveStreamHandler) (w : World) (pid : Str)
    (hnd : (dictKeys h.active_streams).Nodup)
    (hreq : (request_cancel h pid).1 = true)
    (as : List HandlerAction) (hns : ∀ a ∈ as, startsSession pid a = false)
    (u : StreamUpdate) (now : ℚ) :
    handle_update (runActions ((request_cancel h pid).2, w) as).1 pid u now
        (runActions ((request_cancel h pid).2, w) as).2 =
      ((runActions ((request_cancel h pid).2, w) as).1,
        (runActions ((request_cancel h pid).2, w) as).2, false) := by
  have hc0 : cancelledOrGone (request_cancel h pid).2 pid := by
    cases hget : dictGet pid h.active_streams with
    | none =>
      unfold request_cancel at hreq
      rw [hget] at hreq
      simp at hreq
    | some ctx =>
      unfold request_cancel
      rw [hget]
      unfold cancelledOrGone
      simp [dictGet_dictSet_self]
  have hnd0 : (dictKeys ((request_cancel h pid).2).active_streams).Nodup := by
    unfold request_cancel
    cases hget : dictGet pid h.active_streams with
    | none => simpa using hnd
    | some ctx => simpa using nodup_dictKeys_dictSet _ _ _ hnd
  exact handle_update_cancelledOrGone _ _ _ u now
    (runActions_cancelledOrGone as ((request_cancel h pid).2, w) pid hnd0 hns hc0)

/-- Witness for `cancel_monotone_no_sink` at a concrete one-session
handler, an interleaved progress event and a later content delta. -/
theorem cancel_monotone_no_sink_witness :
    handle_update
      (runActions
        ((request_cancel
            ⟨[(str "p",
               { user_id := 1, chat_id := 2, original_message_id := 3,
                 process_id := some (str "p") })]⟩ (str "p")).2,
          mkWorld (fun _ => true))
        [HandlerAction.event (str "p") { type := str "progress" } 1]).1
      (str "p") { type := str "assistant", content := some (str "hi") } 2
      (runActions
        ((request_cancel
            ⟨[(str "p",
               { user_id := 1, chat_id := 2, original_message_id := 3,
                 process_id := some (str "p") })]⟩ (str "p")).2,
          mkWorld (fun _ => true))
        [HandlerAction.event (str "p") { type := str "progress" } 1]).2 =
      ((runActions
          ((request_cancel
              ⟨[(str "p",
                 { user_id := 1, chat_id := 2, original_message_id := 3,
                   process_id := some (str "p") })]⟩ (str "p")).2,
            mkWorld (fun _ => true))
          [HandlerAction.event (str "p") { type := str "progress" } 1]).1,
        (runActions
          ((request_cancel
              ⟨[(str "p",
                 { user_id := 1, chat_id := 2, original_message_id := 3,
                   process_id := some (str "p") })]⟩ (str "p")).2,
            mkWorld (fun _ => true))
          [HandlerAction.event (str "p") { type := str "progress" } 1]).2, false) :=
  cancel_monotone_no_sink
    ⟨[(str "p",
       { user_id := 1, chat_id := 2, original_message_id := 3,
         process_id := some (str "p") })]⟩
    (mkWorld (fun _ => true)) (str "p")
    (by decide) (by decide)
    [HandlerAction.event (str "p") { type := str "progress" } 1]
    (by
      intro a ha
      rw [List.mem_singleton] at ha
      subst ha
      rfl)
    { type := str "assistant", content := some (str "hi") } 2

/-! ## C10: unknown or finalized session ids -/

/-- C10: for a session id not present in the registry, `is_cancelled`
returns `false` and `request_cancel` returns `false` with the handler
unchanged (neither touches the `World`, so no sink calls and no new
registry state); and after `finalize_stream` removes a session, its id
reports `is_cancelled = false` and `request_cancel = false` even if
cancellation had been requested before finalization. -/
theorem unknown_session_noop (h : LiveStreamHandler) (w : World) (pid : Str)
    (hnd : (dictKeys h.active_streams).Nodup) :
    (dictGet pid h.active_streams = none →
      is_cancelled h pid = false ∧ request_cancel h pid = (false, h)) ∧
    (∀ ctx fm ie, dictGet pid h.active_streams = some ctx →
      is_cancelled (finalize_stream h w pid fm ie).1 pid = false ∧
      request_cancel (finalize_stream h w pid fm ie).1 pid =
        (false, (finalize_stream h w pid fm ie).1)) := by
  constructor
  · intro hnone
    constructor
    · simp [is_cancelled, hnone]
    · simp [request_cancel, hnone]
  · intro ctx fm ie hsome
    have hrm : dictGet pid (dictRemove pid h.active_streams) = none :=
      dictGet_dictRemove_self pid h.active_streams hnd
    constructor
    · simp [finalize_stream, hsome, is_cancelled, hrm]
    · simp [finalize_stream, hsome, request_cancel, hrm]

/-- Witness for `unknown_session_noop`: the empty registry, and a
registry holding one already-cancelled session that gets finalized. -/
theorem unknown_session_noop_witness :
    (is_cancelled (⟨[]⟩ : LiveStreamHandler) (str "p") = false ∧
      request_cancel (⟨[]⟩ : LiveStreamHandler) (str "p") =
        (false, (⟨[]⟩ : LiveStreamHandler))) ∧
    is_cancelled
      (finalize_stream
        ⟨[(str "p",
           { user_id := 1, chat_id := 2, original_message_id := 3,
             process_id := some (str "p"), cancel_requested := true })]⟩
        (mkWorld (fun _ => true)) (str "p") (str "bye") false).1 (str "p") = false := by
  refine ⟨(unknown_session_noop ⟨[]⟩ (mkWorld (fun _ => true)) (str "p") (by decide)).1 rfl, ?_⟩
  exact ((unknown_session_noop
    ⟨[(str "p",
       { user_id := 1, chat_id := 2, original_message_id := 3,
         process_id := some (str "p"), cancel_requested := true })]⟩
    (mkWorld (fun _ => true)) (str "p") (by decide)).2
    { user_id := 1, chat_id := 2, original_message_id := 3,
      process_id := some (str "p"), cancel_requested := true }
    (str "bye") false rfl).1

/-! ## Sink-call and field-preservation lemmas -/

theorem sendMsg_trace (w : World) (sl : Slot) (pid : Option Str) (text : Str) (md mk : Bool) :
    (sendMsg w sl pid text md mk).2.trace =
      w.trace ++ [⟨sl, .send, md, mk, w.oracle w.opCount, pid,
        if w.oracle w.opCount then some w.nextId else none⟩] := by
  by_cases ho : w.oracle w.opCount <;> simp [sendMsg, ho]

theorem sendMsg_fst (w : World) (sl : Slot) (pid : Option Str) (text : Str) (md mk : Bool) :
    (sendMsg w sl pid text md mk).1 =
      if w.oracle w.opCount then some w.nextId else none := by
  by_cases ho : w.oracle w.opCount <;> simp [sendMsg, ho]

theorem editMsg_trace (w : World) (sl : Slot) (pid : Option Str) (i : Nat) (text : Str)
    (md mk : Bool) :
    (editMsg w sl pid i text md mk).2.trace =
      w.trace ++ [⟨sl, .edit, md, mk, w.oracle w.opCount, pid, some i⟩] := by
  by_cases ho : w.oracle w.opCount <;> simp [editMsg, ho]

theorem editMsg_fst (w : World) (sl : Slot) (pid : Option Str) (i : Nat) (text : Str)
    (md mk : Bool) :
    (editMsg w sl pid i text md mk).1 = w.oracle w.opCount := by
  by_cases ho : w.oracle w.opCount <;> simp [editMsg, ho]

theorem clearMarkupMsg_trace (w : World) (sl : Slot) (pid : Option Str) (i : Nat) :
    (clearMarkupMsg w sl pid i).2.trace =
      w.trace ++ [⟨sl, .clearMarkup, false, false, w.oracle w.opCount, pid, some i⟩] := by
  by_cases ho : w.oracle w.opCount <;> simp [clearMarkupMsg, ho]

theorem countSlot_append (sl : Slot) (a b : List OpLog) :
    countSlot sl (a ++ b) = countSlot sl a + countSlot sl b := by
  simp [countSlot, slotOps, List.filter_append]

theorem countSlot_single (sl : Slot) (o : OpLog) :
    countSlot sl [o] = if o.slot = sl then 1 else 0 := by
  by_cases h : o.slot = sl <;> simp [countSlot, slotOps, h]

theorem opsSince_of_append (w wNew : World) (d : List OpLog)
    (h : wNew.trace = w.trace ++ d) : opsSince w wNew = d := by
  simp [opsSince, h, List.drop_left]

theorem update_status_fst (c : LiveStreamContext) (w : World) (t : Str) :
    (update_status c w t).1 = c := by
  cases hm : c.status_message <;> simp [update_status, hm]

theorem update_status_trace (c : LiveStreamContext) (w : World) (t : Str) :
    ∃ d : List OpLog, (update_status c w t).2.trace = w.trace ++ d ∧
      countSlot .content d = 0 ∧ countSlot .todo d = 0 := by
  cases hm : c.status_message with
  | none => exact ⟨[], by simp [update_status, hm], rfl, rfl⟩
  | some i =>
    refine ⟨[⟨.status, .edit, true, true, w.oracle w.opCount, c.process_id, some i⟩], ?_, rfl, rfl⟩
    simp [update_status, hm, editMsg_trace]

theorem update_todo_display_fields (c : LiveStreamContext) (w : World) (t : List TodoItem) :
    (update_todo_display c w t).1.last_update_time = c.last_update_time ∧
    (update_todo_display c w t).1.accumulated_content = c.accumulated_content ∧
    (update_todo_display c w t).1.update_throttle = c.update_throttle ∧
    (update_todo_display c w t).1.content_message = c.content_message ∧
    (update_todo_display c w t).1.status_message = c.status_message ∧
    (update_todo_display c w t).1.process_id = c.process_id ∧
    (update_todo_display c w t).1.cancel_requested = c.cancel_requested := by
  by_cases ht : t.isEmpty
  · simp [update_todo_display, ht]
  · cases hm : c.todo_message with
    | some i => simp [update_todo_display, ht, hm]
    | none =>
      by_cases ho : w.oracle w.opCount <;>
        simp [update_todo_display, ht, hm, sendMsg, ho]

theorem update_todo_display_ops (c : LiveStreamContext) (w : World) (t : List TodoItem)
    (hne : ¬t.isEmpty = true) :
    ∃ o : OpLog, o.slot = .todo ∧
      (update_todo_display c w t).2.1.trace = w.trace ++ [o] := by
  cases hm : c.todo_message with
  | some i =>
    refine ⟨⟨.todo, .edit, true, true, w.oracle w.opCount, c.process_id, some i⟩, rfl, ?_⟩
    simp [update_todo_display, hne, hm, editMsg_trace]
  | none =>
    refine ⟨⟨.todo, .send, true, true, w.oracle w.opCount, c.process_id,
      if w.oracle w.opCount then some w.nextId else none⟩, rfl, ?_⟩
    by_cases ho : w.oracle w.opCount <;>
      simp [update_todo_display, hne, hm, sendMsg, ho]

theorem update_content_message_fields (c : LiveStreamContext) (w : World) :
    (update_content_message c w).1.last_update_time = c.last_update_time ∧
    (update_content_message c w).1.accumulated_content = c.accumulated_content ∧
    (update_content_message c w).1.update_throttle = c.update_throttle ∧
    (update_content_message c w).1.todo_message = c.todo_message ∧
    (update_content_message c w).1.status_message = c.status_message ∧
    (update_content_message c w).1.current_todos = c.current_todos ∧
    (update_content_message c w).1.process_id = c.process_id ∧
    (update_content_message c w).1.cancel_requested = c.cancel_requested := by
  by_cases ha : c.accumulated_content.isEmpty
  · simp [update_content_message, ha]
  · cases hm : c.content_message with
    | some i =>
      by_cases ho : (editMsg w .content c.process_id i
          (truncateContent c.accumulated_content) true true).1 <;>
        simp [update_content_message, ha, hm, ho]
    | none =>
      by_cases ho : w.oracle w.opCount
      · have h1 : (sendMsg w .content c.process_id
            (truncateContent c.accumulated_content) true true).1 = some w.nextId := by
          simp [sendMsg_fst, ho]
        simp [update_content_message, ha, hm, h1, update_status_fst]
      · have h1 : (sendMsg w .content c.process_id
            (truncateContent c.accumulated_content) true true).1 = none := by
          simp [sendMsg_fst, ho]
        by_cases ho2 : (sendMsg (sendMsg w .content c.process_id
            (truncateContent c.accumulated_content) true true).2 .content c.process_id
            (truncateContent c.accumulated_content) false false).1.isSome
        · rcases Option.isSome_iff_exists.mp ho2 with ⟨j, hj⟩
          simp [update_content_message, ha, hm, h1, hj]
        · have hj : (sendMsg (sendMsg w .content c.process_id
              (truncateContent c.accumulated_content) true true).2 .content c.process_id
              (truncateContent c.accumulated_content) false false).1 = none := by
            cases hx : (sendMsg (sendMsg w .content c.process_id
                (truncateContent c.accumulated_content) true true).2 .content c.process_id
                (truncateContent c.accumulated_content) false false).1 with
            | none => rfl
            | some j => rw [hx] at ho2; simp at ho2
          simp [update_content_message, ha, hm, h1, hj]

theorem update_content_message_todo_free (c : LiveStreamContext) (w : World) :
    ∃ d : List OpLog, (update_content_message c w).2.trace = w.trace ++ d ∧
      countSlot .todo d = 0 := by
  by_cases ha : c.accumulated_content.isEmpty
  · exact ⟨[], by simp [update_content_message, ha], rfl⟩
  · cases hm : c.content_message with
    | some i =>
      by_cases ho : w.oracle w.opCount
      · have h1 : (editMsg w .content c.process_id i
            (truncateContent c.accumulated_content) true true).1 = true := by
          simp [editMsg_fst, ho]
        refine ⟨[⟨.content, .edit, true, true, true, c.process_id, some i⟩], ?_, rfl⟩
        simp [update_content_message, ha, hm, h1, editMsg_trace, ho]
      · have h1 : (editMsg w .content c.process_id i
            (truncateContent c.accumulated_content) true true).1 = false := by
          simp [editMsg_fst, ho]
        refine ⟨[⟨.content, .edit, true, true, false, c.process_id, some i⟩,
          ⟨.content, .edit, false, false,
            (editMsg w .content c.process_id i (truncateContent c.accumulated_content)
              true true).2.oracle
            (editMsg w .content c.process_id i (truncateContent c.accumulated_content)
              true true).2.opCount, c.process_id, some i⟩], ?_, rfl⟩
        simp [update_content_message, ha, hm, h1, editMsg_trace, ho, List.append_assoc]
    | none =>
      by_cases ho : w.oracle w.opCount
      · have h1 : (sendMsg w .content c.process_id
            (truncateContent c.accumulated_content) true true).1 = some w.nextId := by
          simp [sendMsg_fst, ho]
        obtain ⟨ds, hds, _, hds0⟩ := update_status_trace
          { c with content_message := some w.nextId, messages_sent := c.messages_sent + 1 }
          (sendMsg w .content c.process_id (truncateContent c.accumulated_content) true true).2
          (str "💬 **Streaming response...**")
        refine ⟨[⟨.content, .send, true, true, true, c.process_id, some w.nextId⟩] ++ ds, ?_, ?_⟩
        · simp [update_content_message, ha, hm, h1, hds, sendMsg_trace, ho, List.append_assoc]
        · rw [countSlot_append, countSlot_single]
          simp [hds0]
      · have h1 : (sendMsg w .content c.process_id
            (truncateContent c.accumulated_content) true true).1 = none := by
          simp [sendMsg_fst, ho]
        set w1 := (sendMsg w .content c.process_id
          (truncateContent c.accumulated_content) true true).2 with hw1
        have htr1 : w1.trace =
            w.trace ++ [⟨.content, .send, true, true, false, c.process_id, none⟩] := by
          rw [hw1, sendMsg_trace]
          simp [ho]
        have htr2 := sendMsg_trace w1 .content c.process_id
          (truncateContent c.accumulated_content) false false
        cases h2 : (sendMsg w1 .content c.process_id
            (truncateContent c.accumulated_content) false false).1 with
        | some j =>
          refine ⟨[⟨.content, .send, true, true, false, c.process_id, none⟩,
            ⟨.content, .send, false, false, w1.oracle w1.opCount, c.process_id,
              if w1.oracle w1.opCount then some w1.nextId else none⟩], ?_, rfl⟩
          simp [update_content_message, ha, hm, h1, h2, htr2, htr1, List.append_assoc]
        | none =>
          refine ⟨[⟨.content, .send, true, true, false, c.process_id, none⟩,
            ⟨.content, .send, false, false, w1.oracle w1.opCount, c.process_id,
              if w1.oracle w1.opCount then some w1.nextId else none⟩], ?_, rfl⟩
          simp [update_content_message, ha, hm, h1, h2, htr2, htr1, List.append_assoc]

theorem update_content_message_ops_success (c : LiveStreamContext) (w : World)
    (hor : ∀ n, w.oracle n = true) (hacc : ¬c.accumulated_content.isEmpty = true) :
    ∃ d : List OpLog, (update_content_message c w).2.trace = w.trace ++ d ∧
      countSlot .content d = 1 ∧ countSlot .todo d = 0 := by
  cases hm : c.content_message with
  | some i =>
    have h1 : (editMsg w .content c.process_id i
        (truncateContent c.accumulated_content) true true).1 = true := by
      simp [editMsg_fst, hor]
    refine ⟨[⟨.content, .edit, true, true, true, c.process_id, some i⟩], ?_, rfl, rfl⟩
    simp [update_content_message, hacc, hm, h1, editMsg_trace, hor]
  | none =>
    have h1 : (sendMsg w .content c.process_id
        (truncateContent c.accumulated_content) true true).1 = some w.nextId := by
      simp [sendMsg_fst, hor]
    obtain ⟨ds, hds, hds1, hds0⟩ := update_status_trace
      { c with content_message := some w.nextId, messages_sent := c.messages_sent + 1 }
      (sendMsg w .content c.process_id (truncateContent c.accumulated_content) true true).2
      (str "💬 **Streaming response...**")
    refine ⟨[⟨.content, .send, true, true, true, c.process_id, some w.nextId⟩] ++ ds, ?_, ?_, ?_⟩
    · simp [update_content_message, hacc, hm, h1, hds, sendMsg_trace, hor, List.append_assoc]
    · rw [countSlot_append, countSlot_single]
      simp [hds1]
    · rw [countSlot_append, countSlot_single]
      simp [hds0]

/-! ## C1: todo re-render gating -/

/-- C1 (amended): for a content delta on a live, uncancelled session,
the todo message is re-rendered (exactly one todo-slot sink call,
counting the edit or the creation attempt) if and only if the list
extracted from the full accumulated buffer is nonempty AND differs from
the stored snapshot.  (The source guard is `todos and todos !=
context.current_todos`; mere inequality does not suffice when the
extracted list is empty, and a repeated delta that duplicates todo lines
re-renders again.) -/
theorem todo_rerender_iff_nonempty_changed
    (h : LiveStreamHandler) (w : World) (pid : Str) (ctx : LiveStreamContext)
    (d : Str) (now : ℚ)
    (hget : dictGet pid h.active_streams = some ctx)
    (hflag : ctx.cancel_requested = false) (hd : d ≠ []) :
    countSlot .todo (opsSince w
        (handle_update h pid { type := str "assistant", content := some d } now w).2.1) =
      if extract_todos (ctx.accumulated_content ++ d) ≠ [] ∧
          extract_todos (ctx.accumulated_content ++ d) ≠ ctx.current_todos
        then 1 else 0 := by
  have hde : d.isEmpty = false := by
    cases d with
    | nil => exact absurd rfl hd
    | cons a l => rfl
  have hred : (handle_update h pid { type := str "assistant", content := some d } now w).2.1 =
      (handle_assistant_message ctx w (some d) now).2.1 := by
    simp [handle_update, hget, hflag, dispatchUpdate, truthyStr, hde]
  rw [hred]
  by_cases hc : extract_todos (ctx.accumulated_content ++ d) ≠ [] ∧
      extract_todos (ctx.accumulated_content ++ d) ≠ ctx.current_todos
  · have hne : (extract_todos (ctx.accumulated_content ++ d)).isEmpty = false := by
      cases hx : extract_todos (ctx.accumulated_content ++ d) with
      | nil => exact absurd hx hc.1
      | cons a l => rfl
    obtain ⟨o, hos, htr⟩ := update_todo_display_ops
      { ctx with accumulated_content := ctx.accumulated_content ++ d,
                 current_todos := extract_todos (ctx.accumulated_content ++ d) }
      w (extract_todos (ctx.accumulated_content ++ d)) (by simp [hne])
    simp only [handle_assistant_message, hde, Bool.false_eq_true, if_false]
    set step := update_todo_display
      { ctx with accumulated_content := ctx.accumulated_content ++ d,
                 current_todos := extract_todos (ctx.accumulated_content ++ d) }
      w (extract_todos (ctx.accumulated_content ++ d)) with hstep
    rw [if_pos hc]
    by_cases hr : step.2.2 = true
    · rw [if_pos hr]
      rw [opsSince_of_append w _ [o] htr, countSlot_single]
      simp [hos, hc]
    · rw [if_neg hr]
      by_cases hf : shouldUpdateDecision step.1 now step.1.accumulated_content.length = true
      · rw [if_pos hf]
        obtain ⟨dd, hdd, hdd0⟩ := update_content_message_todo_free step.1 step.2.1
        dsimp only
        rw [opsSince_of_append w _ ([o] ++ dd)
          (by rw [hdd, htr, List.append_assoc])]
        rw [countSlot_append, countSlot_single, hdd0]
        simp [hos, hc]
      · rw [if_neg hf]
        dsimp only
        rw [opsSince_of_append w _ [o] htr, countSlot_single]
        simp [hos, hc]
  · simp only [handle_assistant_message, hde, Bool.false_eq_true, if_false]
    rw [if_neg hc]
    dsimp only
    simp only [Bool.false_eq_true, if_false]
    by_cases hf : shouldUpdateDecision
        { ctx with accumulated_content := ctx.accumulated_content ++ d } now
        ({ ctx with accumulated_content := ctx.accumulated_content ++ d
           : LiveStreamContext }).accumulated_content.length = true
    · rw [if_pos hf]
      obtain ⟨dd, hdd, hdd0⟩ := update_content_message_todo_free
        { ctx with accumulated_content := ctx.accumulated_content ++ d } w
      dsimp only
      rw [opsSince_of_append w _ dd hdd, hdd0]
      simp [hc]
    · rw [if_neg hf]
      dsimp only
      rw [opsSince_of_append w _ [] (by simp)]
      simp [hc, countSlot, slotOps]

/-- Witness for `todo_rerender_iff_nonempty_changed` on a fresh session
receiving the delta `"⏳ a\n"`. -/
theorem todo_rerender_iff_nonempty_changed_witness :
    countSlot .todo (opsSince (mkWorld (fun _ => true))
        (handle_update
          ⟨[(str "p",
             { user_id := 1, chat_id := 2, original_message_id := 3,
               process_id := some (str "p") })]⟩
          (str "p") { type := str "assistant", content := some (str "⏳ a\n") } 1
          (mkWorld (fun _ => true))).2.1) =
      if extract_todos (([] : Str) ++ str "⏳ a\n") ≠ [] ∧
          extract_todos (([] : Str) ++ str "⏳ a\n") ≠ ([] : List TodoItem)
        then 1 else 0 :=
  todo_rerender_iff_nonempty_changed
    ⟨[(str "p",
       { user_id := 1, chat_id := 2, original_message_id := 3,
         process_id := some (str "p") })]⟩
    (mkWorld (fun _ => true)) (str "p")
    { user_id := 1, chat_id := 2, original_message_id := 3,
      process_id := some (str "p") }
    (str "⏳ a\n") 1 rfl rfl (by decide)

/-- C1 counterexample: handling the same delta text `"⏳ a\n"` twice in
a row does NOT trigger zero todo-message edits on the second call — the
buffer doubles, extraction yields a duplicated list that differs from
the snapshot, and the second call performs one todo edit. -/
theorem todo_rerender_same_delta_twice_counterexample :
    (let st0 := start_stream ⟨[]⟩ (mkWorld (fun _ => true)) 1 2 3 (str "p")
     let r1 := handle_update st0.1 (str "p")
       { type := str "assistant", content := some (str "⏳ a\n") } 1 st0.2.1
     let r2 := handle_update r1.1 (str "p")
       { type := str "assistant", content := some (str "⏳ a\n") } 1 r1.2.1
     countSlot .todo (opsSince r1.2.1 r2.2.1)) = 1 := by with_unfolding_all decide

/-! ## C2: the throttle decision -/

theorem update_todo_display_raised (c : LiveStreamContext) (w : World) (t : List TodoItem) :
    (update_todo_display c w t).2.2 = true ↔
      (¬t.isEmpty = true ∧ c.todo_message = none ∧ w.oracle w.opCount = false) := by
  by_cases ht : t.isEmpty
  · simp [update_todo_display, ht]
  · cases hm : c.todo_message with
    | some i => simp [update_todo_display, ht, hm]
    | none =>
      by_cases ho : w.oracle w.opCount <;>
        simp [update_todo_display, ht, hm, sendMsg, ho]

theorem update_todo_display_oracle (c : LiveStreamContext) (w : World) (t : List TodoItem) :
    (update_todo_display c w t).2.1.oracle = w.oracle := by
  by_cases ht : t.isEmpty
  · simp [update_todo_display, ht]
  · cases hm : c.todo_message with
    | some i =>
      by_cases ho : w.oracle w.opCount <;>
        simp [update_todo_display, ht, hm, editMsg, ho]
    | none =>
      by_cases ho : w.oracle w.opCount <;>
        simp [update_todo_display, ht, hm, sendMsg, ho]

theorem shouldUpdateDecision_congr (c c2 : LiveStreamContext) (now : ℚ) (L : Nat)
    (h1 : c2.last_update_time = c.last_update_time)
    (h2 : c2.update_throttle = c.update_throttle) :
    shouldUpdateDecision c2 now L = shouldUpdateDecision c now L := by
  simp [shouldUpdateDecision, h1, h2]

/-- C2: the throttle decision for a content delta is true iff the
elapsed time since the last content edit is at least the minimum
interval (`update_throttle = 3/10` seconds, i.e. 300 ms) or the
accumulated length is an exact positive multiple of 200; it is true on
the very first delta of a session (`last_update_time = 0`, with the
wall clock at least 300 ms past the epoch); and the last-edit timestamp
is stamped to `now` exactly when the decision fired, while a skip
leaves it unchanged.  Under a successful sink, the decision firing
coincides with exactly one content-slot sink call. -/
theorem throttle_decision_spec (ctx : LiveStreamContext) (w : World) (d : Str) (now : ℚ)
    (hthr : ctx.update_throttle = 3 / 10) (hd : d ≠ [])
    (hor : ∀ n, w.oracle n = true) :
    (shouldUpdateDecision ctx now (ctx.accumulated_content ++ d).length = true ↔
      (3 / 10 ≤ now - ctx.last_update_time ∨
        (0 < (ctx.accumulated_content ++ d).length ∧
          200 ∣ (ctx.accumulated_content ++ d).length))) ∧
    (ctx.last_update_time = 0 → 3 / 10 ≤ now →
      shouldUpdateDecision ctx now (ctx.accumulated_content ++ d).length = true) ∧
    ((handle_assistant_message ctx w (some d) now).1.last_update_time =
      if shouldUpdateDecision ctx now (ctx.accumulated_content ++ d).length = true
        then now else ctx.last_update_time) ∧
    (countSlot .content (opsSince w (handle_assistant_message ctx w (some d) now).2.1) =
      if shouldUpdateDecision ctx now (ctx.accumulated_content ++ d).length = true
        then 1 else 0) := by
  have hde : d.isEmpty = false := by
    cases d with
    | nil => exact absurd rfl hd
    | cons a l => rfl
  have hL : 0 < (ctx.accumulated_content ++ d).length := by
    rw [List.length_append]
    cases d with
    | nil => exact absurd rfl hd
    | cons a l => simp
  have hiff : shouldUpdateDecision ctx now (ctx.accumulated_content ++ d).length = true ↔
      (3 / 10 ≤ now - ctx.last_update_time ∨
        (0 < (ctx.accumulated_content ++ d).length ∧
          200 ∣ (ctx.accumulated_content ++ d).length)) := by
    simp only [shouldUpdateDecision, hthr, Bool.or_eq_true, decide_eq_true_eq, beq_iff_eq]
    constructor
    · rintro (h | h)
      · exact Or.inl h
      · exact Or.inr ⟨hL, by omega⟩
    · rintro (h | ⟨_, h⟩)
      · exact Or.inl h
      · exact Or.inr (by omega)
  refine ⟨hiff, ?_, ?_, ?_⟩
  · intro h0 hnow
    apply hiff.mpr
    left
    rw [h0, sub_zero]
    exact hnow
  all_goals
    simp only [handle_assistant_message, hde, Bool.false_eq_true, if_false]
  · -- the timestamp conjunct
    by_cases hg : extract_todos (ctx.accumulated_content ++ d) ≠ [] ∧
        extract_todos (ctx.accumulated_content ++ d) ≠ ctx.current_todos
    · rw [if_pos hg]
      set ctxA : LiveStreamContext :=
        { ctx with accumulated_content := ctx.accumulated_content ++ d,
                   current_todos := extract_todos (ctx.accumulated_content ++ d) } with hctxA
      set step := update_todo_display ctxA w
        (extract_todos (ctx.accumulated_content ++ d)) with hstep
      have hfields := update_todo_display_fields ctxA w
        (extract_todos (ctx.accumulated_content ++ d))
      have hr : step.2.2 = false := by
        rcases hx : step.2.2 with _ | _
        · rfl
        · rw [hstep] at hx
          obtain ⟨_, _, hfail⟩ := (update_todo_display_raised ctxA w _).mp hx
          rw [hor w.opCount] at hfail
          exact absurd hfail (by simp)
      rw [if_neg (by rw [hr]; simp : ¬step.2.2 = true)]
      have hdec : shouldUpdateDecision step.1 now step.1.accumulated_content.length =
          shouldUpdateDecision ctx now (ctx.accumulated_content ++ d).length := by
        rw [hfields.2.1]
        exact shouldUpdateDecision_congr ctx step.1 now _ hfields.1 hfields.2.2.1
      by_cases hf : shouldUpdateDecision ctx now (ctx.accumulated_content ++ d).length = true
      · rw [hdec, if_pos hf, if_pos hf]
      · rw [hdec, if_neg hf, if_neg hf]
        dsimp only
        rw [hfields.1]
    · rw [if_neg hg]
      dsimp only
      simp only [Bool.false_eq_true, if_false]
      by_cases hf : shouldUpdateDecision ctx now (ctx.accumulated_content ++ d).length = true
      · have hdec : shouldUpdateDecision
            { ctx with accumulated_content := ctx.accumulated_content ++ d } now
            (ctx.accumulated_content ++ d).length =
            shouldUpdateDecision ctx now (ctx.accumulated_content ++ d).length :=
          shouldUpdateDecision_congr ctx _ now _ rfl rfl
        rw [hdec, if_pos hf, if_pos hf]
      · have hdec : shouldUpdateDecision
            { ctx with accumulated_content := ctx.accumulated_content ++ d } now
            (ctx.accumulated_content ++ d).length =
            shouldUpdateDecision ctx now (ctx.accumulated_content ++ d).length :=
          shouldUpdateDecision_congr ctx _ now _ rfl rfl
        rw [hdec, if_neg hf, if_neg hf]
  · -- the content sink-call conjunct
    by_cases hg : extract_todos (ctx.accumulated_content ++ d) ≠ [] ∧
        extract_todos (ctx.accumulated_content ++ d) ≠ ctx.current_todos
    · rw [if_pos hg]
      set ctxA : LiveStreamContext :=
        { ctx with accumulated_content := ctx.accumulated_content ++ d,
                   current_todos := extract_todos (ctx.accumulated_content ++ d) } with hctxA
      set step := update_todo_display ctxA w
        (extract_todos (ctx.accumulated_content ++ d)) with hstep
      have hfields := update_todo_display_fields ctxA w
        (extract_todos (ctx.accumulated_content ++ d))
      have hnetodos : ¬(extract_todos (ctx.accumulated_content ++ d)).isEmpty = true := by
        cases hx : extract_todos (ctx.accumulated_content ++ d) with
        | nil => exact absurd hx hg.1
        | cons a l => simp
      obtain ⟨o, hos, htr⟩ := update_todo_display_ops ctxA w
        (extract_todos (ctx.accumulated_content ++ d)) hnetodos
      have hr : step.2.2 = false := by
        rcases hx : step.2.2 with _ | _
        · rfl
        · rw [hstep] at hx
          obtain ⟨_, _, hfail⟩ := (update_todo_display_raised ctxA w _).mp hx
          rw [hor w.opCount] at hfail
          exact absurd hfail (by simp)
      rw [if_neg (by rw [hr]; simp : ¬step.2.2 = true)]
      have hdec : shouldUpdateDecision step.1 now step.1.accumulated_content.length =
          shouldUpdateDecision ctx now (ctx.accumulated_content ++ d).length := by
        rw [hfields.2.1]
        exact shouldUpdateDecision_congr ctx step.1 now _ hfields.1 hfields.2.2.1
      have horA : ∀ n, step.2.1.oracle n = true := by
        intro n
        rw [hstep, update_todo_display_oracle]
        exact hor n
      have haccA : ¬step.1.accumulated_content.isEmpty = true := by
        rw [hfields.2.1]
        cases hx : ctx.accumulated_content ++ d with
        | nil =>
          rw [hx] at hL
          simp at hL
        | cons a l => simp [hctxA, hx]
      by_cases hf : shouldUpdateDecision ctx now (ctx.accumulated_content ++ d).length = true
      · rw [hdec, if_pos hf, if_pos hf]
        obtain ⟨dd, hdd, hdd1, hdd0⟩ :=
          update_content_message_ops_success step.1 step.2.1 horA haccA
        dsimp only
        rw [opsSince_of_append w _ ([o] ++ dd)
          (by rw [hdd, htr, List.append_assoc])]
        rw [countSlot_append, countSlot_single, hdd1]
        simp [hos]
      · rw [hdec, if_neg hf, if_neg hf]
        dsimp only
        rw [opsSince_of_append w _ [o] htr, countSlot_single]
        simp [hos]
    · rw [if_neg hg]
      dsimp only
      simp only [Bool.false_eq_true, if_false]
      have hdec : shouldUpdateDecision
          { ctx with accumulated_content := ctx.accumulated_content ++ d } now
          (ctx.accumulated_content ++ d).length =
          shouldUpdateDecision ctx now (ctx.accumulated_content ++ d).length :=
        shouldUpdateDecision_congr ctx _ now _ rfl rfl
      have hacc1 : ¬({ ctx with accumulated_content := ctx.accumulated_content ++ d
          : LiveStreamContext }).accumulated_content.isEmpty = true := by
        cases hx : ctx.accumulated_content ++ d with
        | nil =>
          rw [hx] at hL
          simp at hL
        | cons a l => simp [hx]
      by_cases hf : shouldUpdateDecision ctx now (ctx.accumulated_content ++ d).length = true
      · rw [hdec, if_pos hf, if_pos hf]
        obtain ⟨dd, hdd, hdd1, hdd0⟩ := update_content_message_ops_success
          { ctx with accumulated_content := ctx.accumulated_content ++ d } w hor hacc1
        dsimp only
        rw [opsSince_of_append w _ dd hdd, hdd1]
      · rw [hdec, if_neg hf, if_neg hf]
        dsimp only
        rw [opsSince_of_append w _ [] (by simp)]
        simp [countSlot, slotOps]

/-- Witness for `throttle_decision_spec` on a fresh session receiving a
single one-character delta at time 1. -/
theorem throttle_decision_spec_witness :
    ((shouldUpdateDecision
        { user_id := 1, chat_id := 2, original_message_id := 3,
          process_id := some (str "p") } 1 (([] : Str) ++ str "x").length = true ↔
      (3 / 10 ≤ 1 - (0 : ℚ) ∨
        (0 < (([] : Str) ++ str "x").length ∧ 200 ∣ (([] : Str) ++ str "x").length))) ∧
    ((0 : ℚ) = 0 → 3 / 10 ≤ (1 : ℚ) →
      shouldUpdateDecision
        { user_id := 1, chat_id := 2, original_message_id := 3,
          process_id := some (str "p") } 1 (([] : Str) ++ str "x").length = true) ∧
    ((handle_assistant_message
        { user_id := 1, chat_id := 2, original_message_id := 3,
          process_id := some (str "p") } (mkWorld (fun _ => true)) (some (str "x")) 1).1.last_update_time =
      if shouldUpdateDecision
          { user_id := 1, chat_id := 2, original_message_id := 3,
            process_id := some (str "p") } 1 (([] : Str) ++ str "x").length = true
        then 1 else (0 : ℚ)) ∧
    (countSlot .content (opsSince (mkWorld (fun _ => true))
        (handle_assistant_message
          { user_id := 1, chat_id := 2, original_message_id := 3,
            process_id := some (str "p") } (mkWorld (fun _ => true)) (some (str "x")) 1).2.1) =
      if shouldUpdateDecision
          { user_id := 1, chat_id := 2, original_message_id := 3,
            process_id := some (str "p") } 1 (([] : Str) ++ str "x").length = true
        then 1 else 0)) :=
  throttle_decision_spec
    { user_id := 1, chat_id := 2, original_message_id := 3, process_id := some (str "p") }
    (mkWorld (fun _ => true)) (str "x") 1 rfl (by decide) (fun n => rfl)

/-! ## C4: the plain-text fallback -/

/-- C4 (amended): only content renders are retried after a rich-markup
failure — a failed content edit/send is retried exactly once, as the
same operation in plain text (no parse mode, no keyboard) and then
abandoned; a failed status edit and a failed todo edit are abandoned
after the single rich attempt with no retry; a failed todo creation is
likewise not retried and its exception escapes to the dispatcher. -/
theorem plaintext_retry_only_for_content
    (c : LiveStreamContext) (w : World) (t : Str) (todos : List TodoItem) :
    (¬c.accumulated_content.isEmpty = true → w.oracle w.opCount = false →
      ∃ o1 o2 : OpLog, (update_content_message c w).2.trace = w.trace ++ [o1, o2] ∧
        o1.slot = .content ∧ o1.md = true ∧ o1.ok = false ∧ o1.action = o2.action ∧
        o2.slot = .content ∧ o2.md = false ∧ o2.markup = false) ∧
    (∀ i, c.status_message = some i → w.oracle w.opCount = false →
      (update_status c w t).2.trace =
        w.trace ++ [⟨.status, .edit, true, true, false, c.process_id, some i⟩]) ∧
    (∀ i, c.todo_message = some i → ¬todos.isEmpty = true → w.oracle w.opCount = false →
      (update_todo_display c w todos).2.1.trace =
        w.trace ++ [⟨.todo, .edit, true, true, false, c.process_id, some i⟩] ∧
      (update_todo_display c w todos).2.2 = false) ∧
    (c.todo_message = none → ¬todos.isEmpty = true → w.oracle w.opCount = false →
      (update_todo_display c w todos).2.1.trace =
        w.trace ++ [⟨.todo, .send, true, true, false, c.process_id, none⟩] ∧
      (update_todo_display c w todos).2.2 = true) := by
  refine ⟨?_, ?_, ?_, ?_⟩
  · intro hacc ho
    cases hm : c.content_message with
    | some i =>
      have h1 : (editMsg w .content c.process_id i
          (truncateContent c.accumulated_content) true true).1 = false := by
        simp [editMsg_fst, ho]
      refine ⟨⟨.content, .edit, true, true, false, c.process_id, some i⟩,
        ⟨.content, .edit, false, false,
          (editMsg w .content c.process_id i (truncateContent c.accumulated_content)
            true true).2.oracle
          (editMsg w .content c.process_id i (truncateContent c.accumulated_content)
            true true).2.opCount, c.process_id, some i⟩, ?_, rfl, rfl, rfl, rfl, rfl, rfl, rfl⟩
      simp [update_content_message, hacc, hm, h1, editMsg_trace, ho, List.append_assoc]
    | none =>
      have h1 : (sendMsg w .content c.process_id
          (truncateContent c.accumulated_content) true true).1 = none := by
        simp [sendMsg_fst, ho]
      set w1 := (sendMsg w .content c.process_id
        (truncateContent c.accumulated_content) true true).2 with hw1
      have htr1 : w1.trace =
          w.trace ++ [⟨.content, .send, true, true, false, c.process_id, none⟩] := by
        rw [hw1, sendMsg_trace]
        simp [ho]
      have htr2 := sendMsg_trace w1 .content c.process_id
        (truncateContent c.accumulated_content) false false
      refine ⟨⟨.content, .send, true, true, false, c.process_id, none⟩,
        ⟨.content, .send, false, false, w1.oracle w1.opCount, c.process_id,
          if w1.oracle w1.opCount then some w1.nextId else none⟩,
        ?_, rfl, rfl, rfl, rfl, rfl, rfl, rfl⟩
      cases h2 : (sendMsg w1 .content c.process_id
          (truncateContent c.accumulated_content) false false).1 with
      | some j => simp [update_content_message, hacc, hm, h1, h2, htr2, htr1, List.append_assoc]
      | none => simp [update_content_message, hacc, hm, h1, h2, htr2, htr1, List.append_assoc]
  · intro i hi ho
    simp [update_status, hi, editMsg_trace, ho]
  · intro i hi ht ho
    constructor
    · simp [update_todo_display, ht, hi, editMsg_trace, ho]
    · simp [update_todo_display, ht, hi]
  · intro hn ht ho
    have h1 : (sendMsg w .todo c.process_id (renderTodoText todos) true true).1 = none := by
      simp [sendMsg_fst, ho]
    constructor
    · simp [update_todo_display, ht, hn, h1, sendMsg_trace, ho]
    · simp [update_todo_display, ht, hn, h1]

/-- Witness for `plaintext_retry_only_for_content`: a session with a
status message, a content message and a todo message under a failing
sink, plus a session without a todo message for the creation case. -/
theorem plaintext_retry_only_for_content_witness :
    (∃ o1 o2 : OpLog,
      (update_content_message
        { user_id := 1, chat_id := 2, original_message_id := 3,
          process_id := some (str "p"), status_message := some 0,
          content_message := some 1, todo_message := some 2,
          accumulated_content := str "hello" }
        (mkWorld (fun _ => false))).2.trace = (mkWorld (fun _ => false)).trace ++ [o1, o2] ∧
      o1.slot = .content ∧ o1.md = true ∧ o1.ok = false ∧ o1.action = o2.action ∧
      o2.slot = .content ∧ o2.md = false ∧ o2.markup = false) ∧
    (update_status
      { user_id := 1, chat_id := 2, original_message_id := 3,
        process_id := some (str "p"), status_message := some 0,
        content_message := some 1, todo_message := some 2,
        accumulated_content := str "hello" }
      (mkWorld (fun _ => false)) (str "st")).2.trace =
      (mkWorld (fun _ => false)).trace ++
        [⟨.status, .edit, true, true, false, some (str "p"), some 0⟩] ∧
    (update_todo_display
      { user_id := 1, chat_id := 2, original_message_id := 3,
        process_id := some (str "p"), status_message := some 0,
        content_message := some 1, todo_message := some 2,
        accumulated_content := str "hello" }
      (mkWorld (fun _ => false)) [⟨str "a", str "pending"⟩]).2.1.trace =
      (mkWorld (fun _ => false)).trace ++
        [⟨.todo, .edit, true, true, false, some (str "p"), some 2⟩] ∧
    ((update_todo_display
      { user_id := 1, chat_id := 2, original_message_id := 3,
        process_id := some (str "p") }
      (mkWorld (fun _ => false)) [⟨str "a", str "pending"⟩]).2.1.trace =
      (mkWorld (fun _ => false)).trace ++
        [⟨.todo, .send, true, true, false, some (str "p"), none⟩] ∧
     (update_todo_display
      { user_id := 1, chat_id := 2, original_message_id := 3,
        process_id := some (str "p") }
      (mkWorld (fun _ => false)) [⟨str "a", str "pending"⟩]).2.2 = true) := by
  refine ⟨?_, ?_, ?_, ?_⟩
  · exact (plaintext_retry_only_for_content
      { user_id := 1, chat_id := 2, original_message_id := 3,
        process_id := some (str "p"), status_message := some 0,
        content_message := some 1, todo_message := some 2,
        accumulated_content := str "hello" }
      (mkWorld (fun _ => false)) (str "st") [⟨str "a", str "pending"⟩]).1
      (by decide) rfl
  · exact (plaintext_retry_only_for_content
      { user_id := 1, chat_id := 2, original_message_id := 3,
        process_id := some (str "p"), status_message := some 0,
        content_message := some 1, todo_message := some 2,
        accumulated_content := str "hello" }
      (mkWorld (fun _ => false)) (str "st") [⟨str "a", str "pending"⟩]).2.1
      0 rfl rfl
  · exact ((plaintext_retry_only_for_content
      { user_id := 1, chat_id := 2, original_message_id := 3,
        process_id := some (str "p"), status_message := some 0,
        content_message := some 1, todo_message := some 2,
        accumulated_content := str "hello" }
      (mkWorld (fun _ => false)) (str "st") [⟨str "a", str "pending"⟩]).2.2.1
      2 rfl (by decide) rfl).1
  · exact (plaintext_retry_only_for_content
      { user_id := 1, chat_id := 2, original_message_id := 3,
        process_id := some (str "p") }
      (mkWorld (fun _ => false)) (str "st") [⟨str "a", str "pending"⟩]).2.2.2
      rfl (by decide) rfl

/-- C4 counterexample: a status edit that fails under the rich markup
dialect is NOT retried as plain text — the trace holds exactly one
(failed, markdown) status op and nothing else. -/
theorem status_edit_no_plaintext_retry_counterexample :
    (update_status
      { user_id := 1, chat_id := 2, original_message_id := 3,
        process_id := some (str "p"), status_message := some 0 }
      (mkWorld (fun _ => false)) (str "hello")).2.trace =
      [⟨.status, .edit, true, true, false, some (str "p"), some 0⟩] := by
  with_unfolding_all decide

/-! ## C5: fault containment -/

theorem update_content_message_trace_shape (c : LiveStreamContext) (w : World)
    (hacc : ¬c.accumulated_content.isEmpty = true) :
    ∃ dd : List OpLog, (update_content_message c w).2.trace = w.trace ++ dd ∧
      0 < countSlot .content dd ∧ countSlot .todo dd = 0 := by
  cases hm : c.content_message with
  | some i =>
    by_cases ho : w.oracle w.opCount
    · have h1 : (editMsg w .content c.process_id i
          (truncateContent c.accumulated_content) true true).1 = true := by
        simp [editMsg_fst, ho]
      refine ⟨[⟨.content, .edit, true, true, true, c.process_id, some i⟩], ?_, ?_, rfl⟩
      · simp [update_content_message, hacc, hm, h1, editMsg_trace, ho]
      · simp [countSlot, slotOps]
    · have h1 : (editMsg w .content c.process_id i
          (truncateContent c.accumulated_content) true true).1 = false := by
        simp [editMsg_fst, ho]
      refine ⟨[⟨.content, .edit, true, true, false, c.process_id, some i⟩,
        ⟨.content, .edit, false, false,
          (editMsg w .content c.process_id i (truncateContent c.accumulated_content)
            true true).2.oracle
          (editMsg w .content c.process_id i (truncateContent c.accumulated_content)
            true true).2.opCount, c.process_id, some i⟩], ?_, ?_, rfl⟩
      · simp [update_content_message, hacc, hm, h1, editMsg_trace, ho, List.append_assoc]
      · simp [countSlot, slotOps]
  | none =>
    by_cases ho : w.oracle w.opCount
    · have h1 : (sendMsg w .content c.process_id
          (truncateContent c.accumulated_content) true true).1 = some w.nextId := by
        simp [sendMsg_fst, ho]
      obtain ⟨ds, hds, hds1, hds0⟩ := update_status_trace
        { c with content_message := some w.nextId, messages_sent := c.messages_sent + 1 }
        (sendMsg w .content c.process_id (truncateContent c.accumulated_content) true true).2
        (str "💬 **Streaming response...**")
      refine ⟨[⟨.content, .send, true, true, true, c.process_id, some w.nextId⟩] ++ ds, ?_, ?_, ?_⟩
      · simp [update_content_message, hacc, hm, h1, hds, sendMsg_trace, ho, List.append_assoc]
      · rw [countSlot_append, countSlot_single]
        simp
      · rw [countSlot_append, countSlot_single]
        simp [hds0]
    · have h1 : (sendMsg w .content c.process_id
          (truncateContent c.accumulated_content) true true).1 = none := by
        simp [sendMsg_fst, ho]
      set w1 := (sendMsg w .content c.process_id
        (truncateContent c.accumulated_content) true true).2 with hw1
      have htr1 : w1.trace =
          w.trace ++ [⟨.content, .send, true, true, false, c.process_id, none⟩] := by
        rw [hw1, sendMsg_trace]
        simp [ho]
      have htr2 := sendMsg_trace w1 .content c.process_id
        (truncateContent c.accumulated_content) false false
      have hshape : (update_content_message c w).2.trace =
          w.trace ++ [⟨.content, .send, true, true, false, c.process_id, none⟩,
            ⟨.content, .send, false, false, w1.oracle w1.opCount, c.process_id,
              if w1.oracle w1.opCount then some w1.nextId else none⟩] := by
        cases h2 : (sendMsg w1 .content c.process_id
            (truncateContent c.accumulated_content) false false).1 with
        | some j => simp [update_content_message, hacc, hm, h1, h2, htr2, htr1, List.append_assoc]
        | none => simp [update_content_message, hacc, hm, h1, h2, htr2, htr1, List.append_assoc]
      refine ⟨_, hshape, ?_, ?_⟩
      · simp [countSlot, slotOps]
      · simp [countSlot, slotOps]

/-- C5 (amended): for a content-delta event on a live uncancelled
session, a sink failure never propagates to the event source —
`handle_update` always returns, and the `except` at its end logs an
error exactly when the todo message had to be created and that send
failed.  When no such escape happens, content/status sink failures do
not abort the event: the content update is attempted (at least one
content sink call) precisely when the throttle authorized it.  When the
todo creation does fail, the rest of the event is aborted: zero content
sink calls even when the throttle authorized one. -/
theorem sink_failure_containment
    (h : LiveStreamHandler) (w : World) (pid : Str) (ctx : LiveStreamContext)
    (d : Str) (now : ℚ)
    (hget : dictGet pid h.active_streams = some ctx)
    (hflag : ctx.cancel_requested = false) (hd : d ≠ []) :
    ((handle_update h pid { type := str "assistant", content := some d } now w).2.2 = true ↔
      (extract_todos (ctx.accumulated_content ++ d) ≠ [] ∧
        extract_todos (ctx.accumulated_content ++ d) ≠ ctx.current_todos ∧
        ctx.todo_message = none ∧ w.oracle w.opCount = false)) ∧
    ((handle_update h pid { type := str "assistant", content := some d } now w).2.2 = false →
      (0 < countSlot .content (opsSince w
          (handle_update h pid { type := str "assistant", content := some d } now w).2.1) ↔
        shouldUpdateDecision ctx now (ctx.accumulated_content ++ d).length = true)) ∧
    ((handle_update h pid { type := str "assistant", content := some d } now w).2.2 = true →
      countSlot .content (opsSince w
        (handle_update h pid { type := str "assistant", content := some d } now w).2.1) = 0) := by
  have hde : d.isEmpty = false := by
    cases d with
    | nil => exact absurd rfl hd
    | cons a l => rfl
  have hL : 0 < (ctx.accumulated_content ++ d).length := by
    rw [List.length_append]
    cases d with
    | nil => exact absurd rfl hd
    | cons a l => simp
  have hred1 : (handle_update h pid { type := str "assistant", content := some d } now w).2.1 =
      (handle_assistant_message ctx w (some d) now).2.1 := by
    simp [handle_update, hget, hflag, dispatchUpdate, truthyStr, hde]
  have hred2 : (handle_update h pid { type := str "assistant", content := some d } now w).2.2 =
      (handle_assistant_message ctx w (some d) now).2.2 := by
    simp [handle_update, hget, hflag, dispatchUpdate, truthyStr, hde]
  rw [hred1, hred2]
  by_cases hg : extract_todos (ctx.accumulated_content ++ d) ≠ [] ∧
      extract_todos (ctx.accumulated_content ++ d) ≠ ctx.current_todos
  · set ctxA : LiveStreamContext :=
      { ctx with accumulated_content := ctx.accumulated_content ++ d,
                 current_todos := extract_todos (ctx.accumulated_content ++ d) } with hctxA
    have hnetodos : ¬(extract_todos (ctx.accumulated_content ++ d)).isEmpty = true := by
      cases hx : extract_todos (ctx.accumulated_content ++ d) with
      | nil => exact absurd hx hg.1
      | cons a l => simp
    obtain ⟨o, hos, htr⟩ := update_todo_display_ops ctxA w
      (extract_todos (ctx.accumulated_content ++ d)) hnetodos
    have hfields := update_todo_display_fields ctxA w
      (extract_todos (ctx.accumulated_content ++ d))
    have hraised := update_todo_display_raised ctxA w
      (extract_todos (ctx.accumulated_content ++ d))
    simp only [handle_assistant_message, hde, Bool.false_eq_true, if_false]
    set step := update_todo_display ctxA w
      (extract_todos (ctx.accumulated_content ++ d)) with hstep
    have haccA : ¬step.1.accumulated_content.isEmpty = true := by
      rw [hfields.2.1]
      cases hx : ctx.accumulated_content ++ d with
      | nil =>
        rw [hx] at hL
        simp at hL
      | cons a l => simp [hctxA, hx]
    have hdec : shouldUpdateDecision step.1 now step.1.accumulated_content.length =
        shouldUpdateDecision ctx now (ctx.accumulated_content ++ d).length := by
      rw [hfields.2.1]
      exact shouldUpdateDecision_congr ctx step.1 now _ hfields.1 hfields.2.2.1
    rw [if_pos hg]
    by_cases hr : step.2.2 = true
    · rw [if_pos hr]
      have hcond := hraised.mp hr
      refine ⟨?_, ?_, ?_⟩
      · constructor
        · intro _
          exact ⟨hg.1, hg.2, hcond.2.1, hcond.2.2⟩
        · intro _
          exact hr
      · intro hfalse
        rw [hr] at hfalse
        exact absurd hfalse (by simp)
      · intro _
        rw [opsSince_of_append w _ [o] htr, countSlot_single]
        simp [hos]
    · rw [if_neg hr]
      have hrfalse : step.2.2 = false := by
        cases hx : step.2.2 with
        | false => rfl
        | true => exact absurd hx hr
      refine ⟨?_, ?_, ?_⟩
      · constructor
        · intro hfalse
          by_cases hf : shouldUpdateDecision step.1 now step.1.accumulated_content.length = true
          · rw [if_pos hf] at hfalse
            simp at hfalse
          · rw [if_neg hf] at hfalse
            simp at hfalse
        · rintro ⟨_, _, hnone, hfail⟩
          exact absurd (hraised.mpr ⟨hnetodos, hnone, hfail⟩) hr
      · intro _
        by_cases hf : shouldUpdateDecision step.1 now step.1.accumulated_content.length = true
        · rw [if_pos hf]
          obtain ⟨dd, hdd, hdd1, hdd0⟩ := update_content_message_trace_shape step.1 step.2.1 haccA
          dsimp only
          rw [opsSince_of_append w _ ([o] ++ dd)
            (by rw [hdd, htr, List.append_assoc])]
          rw [countSlot_append, countSlot_single]
          rw [hdec] at hf
          rw [List.length_append] at hf
          simp [hos, hf, hdd1]
        · rw [if_neg hf]
          dsimp only
          rw [opsSince_of_append w _ [o] htr, countSlot_single]
          rw [hdec] at hf
          rw [List.length_append] at hf
          simp [hos, hf]
      · intro htrue
        by_cases hf : shouldUpdateDecision step.1 now step.1.accumulated_content.length = true
        · rw [if_pos hf] at htrue
          simp at htrue
        · rw [if_neg hf] at htrue
          simp at htrue
  · simp only [handle_assistant_message, hde, Bool.false_eq_true, if_false]
    rw [if_neg hg]
    dsimp only
    simp only [Bool.false_eq_true, if_false]
    have hdec : shouldUpdateDecision
        { ctx with accumulated_content := ctx.accumulated_content ++ d } now
        (ctx.accumulated_content ++ d).length =
        shouldUpdateDecision ctx now (ctx.accumulated_content ++ d).length :=
      shouldUpdateDecision_congr ctx _ now _ rfl rfl
    have hacc1 : ¬({ ctx with accumulated_content := ctx.accumulated_content ++ d
        : LiveStreamContext }).accumulated_content.isEmpty = true := by
      cases hx : ctx.accumulated_content ++ d with
      | nil =>
        rw [hx] at hL
        simp at hL
      | cons a l => simp [hx]
    refine ⟨?_, ?_, ?_⟩
    · constructor
      · intro hfalse
        by_cases hf : shouldUpdateDecision
            { ctx with accumulated_content := ctx.accumulated_content ++ d } now
            (ctx.accumulated_content ++ d).length = true
        · rw [if_pos hf] at hfalse
          simp at hfalse
        · rw [if_neg hf] at hfalse
          simp at hfalse
      · rintro ⟨h1, h2, _, _⟩
        exact absurd ⟨h1, h2⟩ hg
    · intro _
      by_cases hf : shouldUpdateDecision
          { ctx with accumulated_content := ctx.accumulated_content ++ d } now
          (ctx.accumulated_content ++ d).length = true
      · rw [if_pos hf]
        obtain ⟨dd, hdd, hdd1, hdd0⟩ := update_content_message_trace_shape
          { ctx with accumulated_content := ctx.accumulated_content ++ d } w hacc1
        dsimp only
        rw [opsSince_of_append w _ dd hdd]
        rw [hdec] at hf
        rw [List.length_append] at hf
        simp [hf, hdd1]
      · rw [if_neg hf]
        dsimp only
        rw [opsSince_of_append w _ [] (by simp)]
        rw [hdec] at hf
        rw [List.length_append] at hf
        simp [hf, countSlot, slotOps]
    · intro htrue
      by_cases hf : shouldUpdateDecision
          { ctx with accumulated_content := ctx.accumulated_content ++ d } now
          (ctx.accumulated_content ++ d).length = true
      · rw [if_pos hf] at htrue
        simp at htrue
      · rw [if_neg hf] at htrue
        simp at htrue

/-- Witness for `sink_failure_containment`: a fresh session whose todo
creation fails (the sink refuses every call). -/
theorem sink_failure_containment_witness :
    ((handle_update
        ⟨[(str "p",
           { user_id := 1, chat_id := 2, original_message_id := 3,
             process_id := some (str "p") })]⟩
        (str "p") { type := str "assistant", content := some (str "⏳ a\n") } 1
        (mkWorld (fun _ => false))).2.2 = true ↔
      (extract_todos (([] : Str) ++ str "⏳ a\n") ≠ [] ∧
        extract_todos (([] : Str) ++ str "⏳ a\n") ≠ ([] : List TodoItem) ∧
        (none : Option Nat) = none ∧ (mkWorld (fun _ => false)).oracle
          (mkWorld (fun _ => false)).opCount = false)) ∧
    ((handle_update
        ⟨[(str "p",
           { user_id := 1, chat_id := 2, original_message_id := 3,
             process_id := some (str "p") })]⟩
        (str "p") { type := str "assistant", content := some (str "⏳ a\n") } 1
        (mkWorld (fun _ => false))).2.2 = false →
      (0 < countSlot .content (opsSince (mkWorld (fun _ => false))
          (handle_update
            ⟨[(str "p",
               { user_id := 1, chat_id := 2, original_message_id := 3,
                 process_id := some (str "p") })]⟩
            (str "p") { type := str "assistant", content := some (str "⏳ a\n") } 1
            (mkWorld (fun _ => false))).2.1) ↔
        shouldUpdateDecision
          { user_id := 1, chat_id := 2, original_message_id := 3,
            process_id := some (str "p") } 1 (([] : Str) ++ str "⏳ a\n").length = true)) ∧
    ((handle_update
        ⟨[(str "p",
           { user_id := 1, chat_id := 2, original_message_id := 3,
             process_id := some (str "p") })]⟩
        (str "p") { type := str "assistant", content := some (str "⏳ a\n") } 1
        (mkWorld (fun _ => false))).2.2 = true →
      countSlot .content (opsSince (mkWorld (fun _ => false))
        (handle_update
          ⟨[(str "p",
             { user_id := 1, chat_id := 2, original_message_id := 3,
               process_id := some (str "p") })]⟩
          (str "p") { type := str "assistant", content := some (str "⏳ a\n") } 1
          (mkWorld (fun _ => false))).2.1) = 0) :=
  sink_failure_containment
    ⟨[(str "p",
       { user_id := 1, chat_id := 2, original_message_id := 3,
         process_id := some (str "p") })]⟩
    (mkWorld (fun _ => false)) (str "p")
    { user_id := 1, chat_id := 2, original_message_id := 3,
      process_id := some (str "p") }
    (str "⏳ a\n") 1 rfl rfl (by decide)

/-- C5 counterexample: on a fresh session, a content delta whose todo
message creation fails produces zero content sink calls even though the
throttle had authorized a content edit — the failure of one Message
Sink call aborts the remainder of that event (it is still caught and
logged by `handle_update`, so it never propagates). -/
theorem todo_create_failure_aborts_event_counterexample :
    (let h1 : LiveStreamHandler :=
      ⟨[(str "p",
         { user_id := 1, chat_id := 2, original_message_id := 3,
           process_id := some (str "p") })]⟩
     let r := handle_update h1 (str "p")
       { type := str "assistant", content := some (str "⏳ a\n") } 1
       (mkWorld (fun _ => false))
     countSlot .content (opsSince (mkWorld (fun _ => false)) r.2.1) = 0 ∧
     countSlot .todo (opsSince (mkWorld (fun _ => false)) r.2.1) = 1 ∧
     r.2.2 = true ∧
     shouldUpdateDecision
       { user_id := 1, chat_id := 2, original_message_id := 3,
         process_id := some (str "p") } 1 (str "⏳ a\n").length = true) := by
  with_unfolding_all decide

/-! ## C3: status of emoji-prefixed items -/

/-- C3 (amended): an emoji-prefixed match contributes an item whose
status IGNORES the prefix glyph (the pattern consumes it without
capturing): the base status is "pending", overridden to "completed"
when the captured (stripped) description still contains `✅` OR the
whole input contains `"[x]"` case-insensitively, else to "in_progress"
when the description contains `🔄`; the emitted description has the
three status glyphs removed and whitespace trimmed. -/
theorem emoji_item_status_rule (content g : Str)
    (hmem : [g] ∈ findall emojiPattern content) :
    (⟨pyStrip (removeStatusGlyphs (pyStrip g)),
      if (pyStrip g).contains '✅' || strContains (pyLower content) (str "[x]")
        then str "completed"
      else if (pyStrip g).contains '🔄' then str "in_progress"
      else str "pending"⟩ : TodoItem) ∈ extract_todos content := by
  have hpm : processMatch content [g] =
      ⟨pyStrip (removeStatusGlyphs (pyStrip g)),
        if (pyStrip g).contains '✅' || strContains (pyLower content) (str "[x]")
          then str "completed"
        else if (pyStrip g).contains '🔄' then str "in_progress"
        else str "pending"⟩ := rfl
  rw [← hpm]
  apply List.mem_map_of_mem
  apply List.mem_flatMap.mpr
  exact ⟨emojiPattern, by simp [todoPatterns], hmem⟩

/-- Witness for `emoji_item_status_rule` on the input `"✅ done\n"`:
despite the completion-glyph prefix, the emitted item is
`{content: "done", status: "pending"}`. -/
theorem emoji_item_status_rule_witness :
    (⟨pyStrip (removeStatusGlyphs (pyStrip (str "done"))),
      if (pyStrip (str "done")).contains '✅' ||
          strContains (pyLower (str "✅ done\n")) (str "[x]")
        then str "completed"
      else if (pyStrip (str "done")).contains '🔄' then str "in_progress"
      else str "pending"⟩ : TodoItem) ∈ extract_todos (str "✅ done\n") :=
  emoji_item_status_rule (str "✅ done\n") (str "done") (by decide)

/-- C3 counterexample: the input `"✅ done\n"` — prefixed by the
completion glyph — is extracted with status "pending", not "completed":
the prefix glyph never determines the status. -/
theorem emoji_status_glyph_counterexample :
    extract_todos (str "✅ done\n") = [⟨str "done", str "pending"⟩] ∧
      str "pending" ≠ str "completed" := by decide

/-! ## C6: idempotence of extraction -/

theorem mem_pyStrip (c : Char) (l : Str) (h : c ∈ pyStrip l) : c ∈ l := by
  unfold pyStrip at h
  rw [List.mem_reverse] at h
  have h2 := (List.dropWhile_sublist (l := (l.dropWhile isSpacePy).reverse)
    (p := isSpacePy)).mem h
  rw [List.mem_reverse] at h2
  exact (List.dropWhile_sublist (l := l) (p := isSpacePy)).mem h2

theorem mem_removeChar (c g : Char) (l : Str) (h : c ∈ removeChar g l) :
    c ∈ l ∧ c ≠ g := by
  unfold removeChar at h
  rw [List.mem_filter] at h
  refine ⟨h.1, ?_⟩
  have := h.2
  simp only [Bool.not_eq_true'] at this
  intro heq
  rw [heq] at this
  simp at this

theorem scanReF_emoji_nil (fuel : Nat) (s : Str)
    (hs : ∀ c ∈ s, ¬(c = '⏳' ∨ c = '🔄' ∨ c = '✅')) :
    scanReF fuel emojiPattern s = [] := by
  induction fuel generalizing s with
  | zero => rfl
  | succ n ih =>
    cases s with
    | nil => rfl
    | cons c rest =>
      have hc := hs c (List.mem_cons_self _ _)
      push_neg at hc
      have e1 : (c == '⏳') = false := by
        simp [hc.1]
      have e2 : (c == '🔄') = false := by
        simp [hc.2.1]
      have e3 : (c == '✅') = false := by
        simp [hc.2.2]
      have hmatch : matchRe emojiPattern (c :: rest) = [] := by
        simp [emojiPattern, matchRe, e1, e2, e3]
      simp only [scanReF, hmatch, List.head?_nil]
      exact ih rest (fun x hx => hs x (List.mem_cons_of_mem _ hx))

/-- C6 (amended): extraction is NOT idempotent in general (see the
counterexample: checkbox/numbered syntax may survive inside an emitted
description and re-match).  What does hold: every emitted description
is free of the three status glyphs, so re-running extraction on an
emitted description can never match the emoji-prefixed pattern. -/
theorem extract_todos_descriptions_glyph_free (content : Str) (it : TodoItem)
    (hmem : it ∈ extract_todos content) :
    (∀ c ∈ it.content, ¬(c = '⏳' ∨ c = '🔄' ∨ c = '✅')) ∧
    findall emojiPattern it.content = [] := by
  have hform : ∃ gs, it = processMatch content gs := by
    unfold extract_todos at hmem
    rw [List.mem_map] at hmem
    obtain ⟨gs, _, hgs⟩ := hmem
    exact ⟨gs, hgs.symm⟩
  obtain ⟨gs, hgs⟩ := hform
  have hcontent : it.content =
      pyStrip (removeStatusGlyphs (pyStrip (gs.headD []))) := by
    rw [hgs]
    rfl
  have hfree : ∀ c ∈ it.content, ¬(c = '⏳' ∨ c = '🔄' ∨ c = '✅') := by
    intro c hc
    rw [hcontent] at hc
    have hc2 := mem_pyStrip c _ hc
    unfold removeStatusGlyphs at hc2
    obtain ⟨hc3, hne1⟩ := mem_removeChar c '⏳' _ hc2
    obtain ⟨hc4, hne2⟩ := mem_removeChar c '🔄' _ hc3
    obtain ⟨hc5, hne3⟩ := mem_removeChar c '✅' _ hc4
    rintro (h | h | h)
    · exact hne1 h
    · exact hne2 h
    · exact hne3 h
  exact ⟨hfree, scanReF_emoji_nil _ _ hfree⟩

/-- Witness for `extract_todos_descriptions_glyph_free` at the item
extracted from `"✅ done\n"`. -/
theorem extract_todos_descriptions_glyph_free_witness :
    (∀ c ∈ (⟨str "done", str "pending"⟩ : TodoItem).content,
      ¬(c = '⏳' ∨ c = '🔄' ∨ c = '✅')) ∧
    findall emojiPattern (⟨str "done", str "pending"⟩ : TodoItem).content = [] :=
  extract_todos_descriptions_glyph_free (str "✅ done\n")
    ⟨str "done", str "pending"⟩ (by decide)

/-- C6 counterexample: extraction is not idempotent.  For the input
`"⏳ 1. fix (done)\n"` the emitted description `"1. fix (done)"`
re-matches the numbered pattern (and is mutated) when extraction is
re-run on it; and for `"- [x] a\n"` extracting the rendered extraction
differs from extracting the original text. -/
theorem extract_todos_not_idempotent_counterexample :
    (extract_todos (str "⏳ 1. fix (done)\n")).map TodoItem.content =
      [str "fix", str "1. fix (done)"] ∧
    extract_todos (str "1. fix (done)") = [⟨str "fix", str "done"⟩] ∧
    extract_todos (str "1. fix (done)") ≠ [] ∧
    extract_todos (str "- [x] a\n") = [⟨str "a", str "completed"⟩] ∧
    extract_todos (renderTodoText (extract_todos (str "- [x] a\n"))) =
      [⟨str "a", str "pending"⟩] ∧
    extract_todos (renderTodoText (extract_todos (str "- [x] a\n"))) ≠
      extract_todos (str "- [x] a\n") := by decide

/-! ## C7: finalization -/

theorem sendMsg_oracle (w : World) (sl : Slot) (pid : Option Str) (text : Str) (md mk : Bool) :
    (sendMsg w sl pid text md mk).2.oracle = w.oracle := by
  by_cases ho : w.oracle w.opCount <;> simp [sendMsg, ho]

theorem editMsg_oracle (w : World) (sl : Slot) (pid : Option Str) (i : Nat) (text : Str)
    (md mk : Bool) : (editMsg w sl pid i text md mk).2.oracle = w.oracle := by
  by_cases ho : w.oracle w.opCount <;> simp [editMsg, ho]

theorem clearMarkupMsg_oracle (w : World) (sl : Slot) (pid : Option Str) (i : Nat) :
    (clearMarkupMsg w sl pid i).2.oracle = w.oracle := by
  by_cases ho : w.oracle w.opCount <;> simp [clearMarkupMsg, ho]

theorem update_status_oracle (c : LiveStreamContext) (w : World) (t : Str) :
    (update_status c w t).2.oracle = w.oracle := by
  cases hm : c.status_message with
  | none => simp [update_status, hm]
  | some i => simp [update_status, hm, editMsg_oracle]

theorem update_content_message_oracle (c : LiveStreamContext) (w : World) :
    (update_content_message c w).2.oracle = w.oracle := by
  by_cases ha : c.accumulated_content.isEmpty
  · simp [update_content_message, ha]
  · cases hm : c.content_message with
    | some i =>
      by_cases ho : (editMsg w .content c.process_id i
          (truncateContent c.accumulated_content) true true).1 <;>
        simp [update_content_message, ha, hm, ho, editMsg_oracle]
    | none =>
      cases h1 : (sendMsg w .content c.process_id
          (truncateContent c.accumulated_content) true true).1 with
      | some i => simp [update_content_message, ha, hm, h1, update_status_oracle, sendMsg_oracle]
      | none =>
        cases h2 : (sendMsg (sendMsg w .content c.process_id
            (truncateContent c.accumulated_content) true true).2 .content c.process_id
            (truncateContent c.accumulated_content) false false).1 with
        | some j => simp [update_content_message, ha, hm, h1, h2, sendMsg_oracle]
        | none => simp [update_content_message, ha, hm, h1, h2, sendMsg_oracle]

theorem renderCount_append (sl : Slot) (a b : List OpLog) :
    renderCount sl (a ++ b) = renderCount sl a + renderCount sl b := by
  simp [renderCount, List.filter_append]

theorem update_status_render_free (c : LiveStreamContext) (w : World) (t : Str) :
    ∃ ds : List OpLog, (update_status c w t).2.trace = w.trace ++ ds ∧
      renderCount .content ds = 0 := by
  cases hm : c.status_message with
  | none => exact ⟨[], by simp [update_status, hm], rfl⟩
  | some i =>
    refine ⟨[⟨.status, .edit, true, true, w.oracle w.opCount, c.process_id, some i⟩], ?_, rfl⟩
    simp [update_status, hm, editMsg_trace]

theorem update_content_message_render_success (c : LiveStreamContext) (w : World)
    (hor : ∀ n, w.oracle n = true) (hacc : ¬c.accumulated_content.isEmpty = true) :
    ∃ dd : List OpLog, (update_content_message c w).2.trace = w.trace ++ dd ∧
      renderCount .content dd = 1 := by
  cases hm : c.content_message with
  | some i =>
    have h1 : (editMsg w .content c.process_id i
        (truncateContent c.accumulated_content) true true).1 = true := by
      simp [editMsg_fst, hor]
    refine ⟨[⟨.content, .edit, true, true, true, c.process_id, some i⟩], ?_, rfl⟩
    simp [update_content_message, hacc, hm, h1, editMsg_trace, hor]
  | none =>
    have h1 : (sendMsg w .content c.process_id
        (truncateContent c.accumulated_content) true true).1 = some w.nextId := by
      simp [sendMsg_fst, hor]
    obtain ⟨ds, hds, hds1⟩ := update_status_render_free
      { c with content_message := some w.nextId, messages_sent := c.messages_sent + 1 }
      (sendMsg w .content c.process_id (truncateContent c.accumulated_content) true true).2
      (str "💬 **Streaming response...**")
    refine ⟨[⟨.content, .send, true, true, true, c.process_id, some w.nextId⟩] ++ ds, ?_, ?_⟩
    · simp [update_content_message, hacc, hm, h1, hds, sendMsg_trace, hor, List.append_assoc]
    · rw [renderCount_append, hds1]
      simp [renderCount, isRenderOp]

theorem markup_false_editMsg_preserved (w : World) (sl : Slot) (pid : Option Str)
    (i j : Nat) (text : Str) (md : Bool)
    (h : ∀ r, w.msgs j = some r → r.markup = false) :
    ∀ r, (editMsg w sl pid i text md false).2.msgs j = some r → r.markup = false := by
  intro r hr
  by_cases ho : w.oracle w.opCount
  · simp only [editMsg, ho, if_true] at hr
    by_cases hij : j = i
    · simp [hij] at hr
      rw [← hr]
    · simp [hij] at hr
      exact h r hr
  · simp only [editMsg, ho, Bool.false_eq_true, if_false] at hr
    exact h r hr

theorem markup_false_clearMarkup_preserved (w : World) (sl : Slot) (pid : Option Str)
    (i j : Nat)
    (h : ∀ r, w.msgs j = some r → r.markup = false) :
    ∀ r, (clearMarkupMsg w sl pid i).2.msgs j = some r → r.markup = false := by
  intro r hr
  by_cases ho : w.oracle w.opCount
  · simp only [clearMarkupMsg, ho, if_true] at hr
    by_cases hij : j = i
    · simp [hij] at hr
      obtain ⟨r0, hr0, hr1⟩ := hr
      rw [← hr1]
    · simp [hij] at hr
      exact h r hr
  · simp only [clearMarkupMsg, ho, Bool.false_eq_true, if_false] at hr
    exact h r hr

theorem markup_false_editMsg_self (w : World) (sl : Slot) (pid : Option Str)
    (i : Nat) (text : Str) (md : Bool) (ho : w.oracle w.opCount = true) :
    ∀ r, (editMsg w sl pid i text md false).2.msgs i = some r → r.markup = false := by
  intro r hr
  simp only [editMsg, ho, if_true] at hr
  simp at hr
  rw [← hr]

theorem markup_false_clearMarkup_self (w : World) (sl : Slot) (pid : Option Str)
    (i : Nat) (ho : w.oracle w.opCount = true) :
    ∀ r, (clearMarkupMsg w sl pid i).2.msgs i = some r → r.markup = false := by
  intro r hr
  simp only [clearMarkupMsg, ho, if_true] at hr
  simp at hr
  obtain ⟨r0, hr0, hr1⟩ := hr
  rw [← hr1]

/-- C7: with a successful sink, `finalize_stream` on a live session
performs exactly one more content render when the buffer is nonempty
(and none when it is empty), bypassing the throttle; afterwards none of
the session's status/content/todo messages carries a cancel keyboard;
and the session is removed from the registry, so subsequent
`handle_update`, `is_cancelled` and `request_cancel` calls for the id
are no-ops. -/
theorem finalize_stream_spec (h : LiveStreamHandler) (w : World) (pid : Str)
    (ctx : LiveStreamContext) (fm : Str) (ie : Bool)
    (hget : dictGet pid h.active_streams = some ctx)
    (hnd : (dictKeys h.active_streams).Nodup)
    (hor : ∀ n, w.oracle n = true) :
    renderCount .content (opsSince w (finalize_stream h w pid fm ie).2) =
      (if ctx.accumulated_content.isEmpty then 0 else 1) ∧
    (∀ i, ((finalize_ctx ctx w ie).1.status_message = some i ∨
        (finalize_ctx ctx w ie).1.content_message = some i ∨
        (finalize_ctx ctx w ie).1.todo_message = some i) →
      ∀ r, (finalize_stream h w pid fm ie).2.msgs i = some r → r.markup = false) ∧
    dictGet pid (finalize_stream h w pid fm ie).1.active_streams = none ∧
    (∀ u now w2, handle_update (finalize_stream h w pid fm ie).1 pid u now w2 =
      ((finalize_stream h w pid fm ie).1, w2, false)) ∧
    is_cancelled (finalize_stream h w pid fm ie).1 pid = false ∧
    request_cancel (finalize_stream h w pid fm ie).1 pid =
      (false, (finalize_stream h w pid fm ie).1) := by
  have hfs1 : (finalize_stream h w pid fm ie).1 = ⟨dictRemove pid h.active_streams⟩ := by
    simp [finalize_stream, hget]
  have hfs2 : (finalize_stream h w pid fm ie).2 = (finalize_ctx ctx w ie).2 := by
    simp [finalize_stream, hget]
  set s1 := (if !ctx.accumulated_content.isEmpty then update_content_message ctx w
    else (ctx, w)) with hs1
  set w2 := (match s1.1.content_message with
    | some i => (clearMarkupMsg s1.2 .content s1.1.process_id i).2
    | none => s1.2) with hw2
  set w3 := (match s1.1.status_message with
    | some i => (editMsg w2 .status s1.1.process_id i (finishText ie) true false).2
    | none => w2) with hw3
  set w4 := (match s1.1.todo_message with
    | some i => (clearMarkupMsg w3 .todo s1.1.process_id i).2
    | none => w3) with hw4
  have hfc2 : (finalize_ctx ctx w ie).2 = w4 := rfl
  have hfc1 : (finalize_ctx ctx w ie).1 = s1.1 := rfl
  have hos1 : s1.2.oracle = w.oracle := by
    rw [hs1]
    by_cases hacc : ctx.accumulated_content.isEmpty <;>
      simp [hacc, update_content_message_oracle]
  have how2 : w2.oracle = w.oracle := by
    rw [hw2]
    cases hcm : s1.1.content_message <;>
      simp [clearMarkupMsg_oracle, hos1]
  have how3 : w3.oracle = w.oracle := by
    rw [hw3]
    cases hsm : s1.1.status_message <;>
      simp [editMsg_oracle, how2]
  -- markup of the content message
  have hcontent : ∀ i2, s1.1.content_message = some i2 →
      ∀ r, w4.msgs i2 = some r → r.markup = false := by
    intro i2 hi2
    have h2 : ∀ r, w2.msgs i2 = some r → r.markup = false := by
      rw [hw2, hi2]
      exact markup_false_clearMarkup_self s1.2 .content s1.1.process_id i2
        (by rw [hos1]; exact hor _)
    have h3 : ∀ r, w3.msgs i2 = some r → r.markup = false := by
      rw [hw3]
      cases hsm : s1.1.status_message with
      | none => exact h2
      | some j => exact markup_false_editMsg_preserved w2 .status s1.1.process_id j i2 _ true h2
    rw [hw4]
    cases htm : s1.1.todo_message with
    | none => exact h3
    | some k => exact markup_false_clearMarkup_preserved w3 .todo s1.1.process_id k i2 h3
  -- markup of the status message
  have hstatus : ∀ j, s1.1.status_message = some j →
      ∀ r, w4.msgs j = some r → r.markup = false := by
    intro j hj
    have h3 : ∀ r, w3.msgs j = some r → r.markup = false := by
      rw [hw3, hj]
      exact markup_false_editMsg_self w2 .status s1.1.process_id j _ true
        (by rw [how2]; exact hor _)
    rw [hw4]
    cases htm : s1.1.todo_message with
    | none => exact h3
    | some k => exact markup_false_clearMarkup_preserved w3 .todo s1.1.process_id k j h3
  -- markup of the todo message
  have htodo : ∀ k, s1.1.todo_message = some k →
      ∀ r, w4.msgs k = some r → r.markup = false := by
    intro k hk
    rw [hw4, hk]
    exact markup_false_clearMarkup_self w3 .todo s1.1.process_id k
      (by rw [how3]; exact hor _)
  -- trace decomposition
  have hT1 : ∃ d1, s1.2.trace = w.trace ++ d1 ∧
      renderCount .content d1 = (if ctx.accumulated_content.isEmpty then 0 else 1) := by
    by_cases hacc : ctx.accumulated_content.isEmpty
    · refine ⟨[], ?_, by simp [hacc, renderCount]⟩
      rw [hs1]
      simp [hacc]
    · obtain ⟨dd, hdd, hdd1⟩ := update_content_message_render_success ctx w hor hacc
      refine ⟨dd, ?_, by simp [hacc, hdd1]⟩
      rw [hs1]
      simp [hacc, hdd]
  have hT2 : ∃ d2, w2.trace = s1.2.trace ++ d2 ∧ renderCount .content d2 = 0 := by
    rw [hw2]
    cases hcm : s1.1.content_message with
    | none => exact ⟨[], by simp, rfl⟩
    | some i =>
      refine ⟨[⟨.content, .clearMarkup, false, false, s1.2.oracle s1.2.opCount,
        s1.1.process_id, some i⟩], ?_, ?_⟩
      · simp [clearMarkupMsg_trace]
      · simp [renderCount, isRenderOp]
  have hT3 : ∃ d3, w3.trace = w2.trace ++ d3 ∧ renderCount .content d3 = 0 := by
    rw [hw3]
    cases hsm : s1.1.status_message with
    | none => exact ⟨[], by simp, rfl⟩
    | some j =>
      refine ⟨[⟨.status, .edit, true, false, w2.oracle w2.opCount,
        s1.1.process_id, some j⟩], ?_, ?_⟩
      · simp [editMsg_trace]
      · simp [renderCount, isRenderOp]
  have hT4 : ∃ d4, w4.trace = w3.trace ++ d4 ∧ renderCount .content d4 = 0 := by
    rw [hw4]
    cases htm : s1.1.todo_message with
    | none => exact ⟨[], by simp, rfl⟩
    | some k =>
      refine ⟨[⟨.todo, .clearMarkup, false, false, w3.oracle w3.opCount,
        s1.1.process_id, some k⟩], ?_, ?_⟩
      · simp [clearMarkupMsg_trace]
      · simp [renderCount, isRenderOp]
  obtain ⟨d1, hd1, hr1⟩ := hT1
  obtain ⟨d2, hd2, hr2⟩ := hT2
  obtain ⟨d3, hd3, hr3⟩ := hT3
  obtain ⟨d4, hd4, hr4⟩ := hT4
  have hrm : dictGet pid (dictRemove pid h.active_streams) = none :=
    dictGet_dictRemove_self pid h.active_streams hnd
  refine ⟨?_, ?_, ?_, ?_, ?_, ?_⟩
  · rw [hfs2, hfc2]
    rw [opsSince_of_append w w4 (d1 ++ d2 ++ d3 ++ d4)
      (by rw [hd4, hd3, hd2, hd1]; simp [List.append_assoc])]
    rw [renderCount_append, renderCount_append, renderCount_append,
      hr1, hr2, hr3, hr4]
    omega
  · intro i hi r hmsg
    rw [hfs2, hfc2] at hmsg
    rw [hfc1] at hi
    rcases hi with hi | hi | hi
    · exact hstatus i hi r hmsg
    · exact hcontent i hi r hmsg
    · exact htodo i hi r hmsg
  · rw [hfs1]
    exact hrm
  · intro u now w5
    rw [hfs1]
    simp [handle_update, hrm]
  · rw [hfs1]
    simp [is_cancelled, hrm]
  · rw [hfs1]
    simp [request_cancel, hrm]

/-- Witness for `finalize_stream_spec`: one live session holding all
three messages and a nonempty buffer, with a successful sink. -/
theorem finalize_stream_spec_witness :
    renderCount .content (opsSince (mkWorld (fun _ => true))
        (finalize_stream
          ⟨[(str "p",
             { user_id := 1, chat_id := 2, original_message_id := 3,
               process_id := some (str "p"), status_message := some 0,
               content_message := some 1, todo_message := some 2,
               accumulated_content := str "hello" })]⟩
          (mkWorld (fun _ => true)) (str "p") (str "bye") false).2) =
      (if (str "hello").isEmpty then 0 else 1) ∧
    (∀ i, ((finalize_ctx
          { user_id := 1, chat_id := 2, original_message_id := 3,
            process_id := some (str "p"), status_message := some 0,
            content_message := some 1, todo_message := some 2,
            accumulated_content := str "hello" }
          (mkWorld (fun _ => true)) false).1.status_message = some i ∨
        (finalize_ctx
          { user_id := 1, chat_id := 2, original_message_id := 3,
            process_id := some (str "p"), status_message := some 0,
            content_message := some 1, todo_message := some 2,
            accumulated_content := str "hello" }
          (mkWorld (fun _ => true)) false).1.content_message = some i ∨
        (finalize_ctx
          { user_id := 1, chat_id := 2, original_message_id := 3,
            process_id := some (str "p"), status_message := some 0,
            content_message := some 1, todo_message := some 2,
            accumulated_content := str "hello" }
          (mkWorld (fun _ => true)) false).1.todo_message = some i) →
      ∀ r, (finalize_stream
          ⟨[(str "p",
             { user_id := 1, chat_id := 2, original_message_id := 3,
               process_id := some (str "p"), status_message := some 0,
               content_message := some 1, todo_message := some 2,
               accumulated_content := str "hello" })]⟩
          (mkWorld (fun _ => true)) (str "p") (str "bye") false).2.msgs i = some r →
        r.markup = false) ∧
    dictGet (str "p") (finalize_stream
        ⟨[(str "p",
           { user_id := 1, chat_id := 2, original_message_id := 3,
             process_id := some (str "p"), status_message := some 0,
             content_message := some 1, todo_message := some 2,
             accumulated_content := str "hello" })]⟩
        (mkWorld (fun _ => true)) (str "p") (str "bye") false).1.active_streams = none ∧
    (∀ u now w2, handle_update (finalize_stream
        ⟨[(str "p",
           { user_id := 1, chat_id := 2, original_message_id := 3,
             process_id := some (str "p"), status_message := some 0,
             content_message := some 1, todo_message := some 2,
             accumulated_content := str "hello" })]⟩
        (mkWorld (fun _ => true)) (str "p") (str "bye") false).1 (str "p") u now w2 =
      ((finalize_stream
        ⟨[(str "p",
           { user_id := 1, chat_id := 2, original_message_id := 3,
             process_id := some (str "p"), status_message := some 0,
             content_message := some 1, todo_message := some 2,
             accumulated_content := str "hello" })]⟩
        (mkWorld (fun _ => true)) (str "p") (str "bye") false).1, w2, false)) ∧
    is_cancelled (finalize_stream
        ⟨[(str "p",
           { user_id := 1, chat_id := 2, original_message_id := 3,
             process_id := some (str "p"), status_message := some 0,
             content_message := some 1, todo_message := some 2,
             accumulated_content := str "hello" })]⟩
        (mkWorld (fun _ => true)) (str "p") (str "bye") false).1 (str "p") = false ∧
    request_cancel (finalize_stream
        ⟨[(str "p",
           { user_id := 1, chat_id := 2, original_message_id := 3,
             process_id := some (str "p"), status_message := some 0,
             content_message := some 1, todo_message := some 2,
             accumulated_content := str "hello" })]⟩
        (mkWorld (fun _ => true)) (str "p") (str "bye") false).1 (str "p") =
      (false, (finalize_stream
        ⟨[(str "p",
           { user_id := 1, chat_id := 2, original_message_id := 3,
             process_id := some (str "p"), status_message := some 0,
             content_message := some 1, todo_message := some 2,
             accumulated_content := str "hello" })]⟩
        (mkWorld (fun _ => true)) (str "p") (str "bye") false).1) :=
  finalize_stream_spec
    ⟨[(str "p",
       { user_id := 1, chat_id := 2, original_message_id := 3,
         process_id := some (str "p"), status_message := some 0,
         content_message := some 1, todo_message := some 2,
         accumulated_content := str "hello" })]⟩
    (mkWorld (fun _ => true)) (str "p")
    { user_id := 1, chat_id := 2, original_message_id := 3,
      process_id := some (str "p"), status_message := some 0,
      content_message := some 1, todo_message := some 2,
      accumulated_content := str "hello" }
    (str "bye") false rfl (by decide) (fun n => rfl)

/-! ## C9: at most one creation per message slot -/

theorem createCount_append (tr1 tr2 : List OpLog) (sl : Slot) (p : Str) :
    createCount (tr1 ++ tr2) sl p = createCount tr1 sl p + createCount tr2 sl p := by
  simp [createCount, List.filter_append]

theorem createCount_singleton (o : OpLog) (sl : Slot) (p : Str) :
    createCount [o] sl p = if isCreateOp sl p o then 1 else 0 := by
  by_cases h : isCreateOp sl p o <;> simp [createCount, h]

theorem createCount_edit (sl1 : Slot) (md mk ok : Bool) (pd : Option Str) (tg : Option Nat)
    (sl : Slot) (p : Str) :
    createCount [⟨sl1, .edit, md, mk, ok, pd, tg⟩] sl p = 0 := by
  simp [createCount, isCreateOp]

theorem createCount_clear (sl1 : Slot) (md mk ok : Bool) (pd : Option Str) (tg : Option Nat)
    (sl : Slot) (p : Str) :
    createCount [⟨sl1, .clearMarkup, md, mk, ok, pd, tg⟩] sl p = 0 := by
  simp [createCount, isCreateOp]

theorem createCount_send_fail (sl1 : Slot) (md mk : Bool) (pd : Option Str) (tg : Option Nat)
    (sl : Slot) (p : Str) :
    createCount [⟨sl1, .send, md, mk, false, pd, tg⟩] sl p = 0 := by
  simp [createCount, isCreateOp]

theorem createCount_send_ok (sl1 : Slot) (md mk : Bool) (pd : Option Str) (tg : Option Nat)
    (sl : Slot) (p : Str) :
    createCount [⟨sl1, .send, md, mk, true, pd, tg⟩] sl p =
      if sl1 = sl ∧ pd = some p then 1 else 0 := by
  by_cases h1 : sl1 = sl
  · by_cases h2 : pd = some p
    · simp [createCount, isCreateOp, h1, h2]
    · simp [createCount, isCreateOp, h1, h2]
  · simp [createCount, isCreateOp, h1]

theorem update_status_creates (c : LiveStreamContext) (w : World) (t : Str) :
    ∃ ds : List OpLog, (update_status c w t).2.trace = w.trace ++ ds ∧
      ∀ sl p, createCount ds sl p = 0 := by
  cases hm : c.status_message with
  | none => exact ⟨[], by simp [update_status, hm], fun sl p => rfl⟩
  | some i =>
    refine ⟨[⟨.status, .edit, true, true, w.oracle w.opCount, c.process_id, some i⟩], ?_, ?_⟩
    · simp [update_status, hm, editMsg_trace]
    · intro sl p
      exact createCount_edit _ _ _ _ _ _ _ _

theorem update_content_message_creates (c : LiveStreamContext) (w : World) :
    ∃ dd : List OpLog, (update_content_message c w).2.trace = w.trace ++ dd ∧
      (∀ p, createCount dd .status p = 0) ∧
      (∀ p, createCount dd .todo p = 0) ∧
      (∀ p, ¬c.process_id = some p → createCount dd .content p = 0) ∧
      (∀ p, c.process_id = some p →
        createCount dd .content p + (if c.content_message.isSome then 1 else 0) =
          (if (update_content_message c w).1.content_message.isSome then 1 else 0)) := by
  by_cases ha : c.accumulated_content.isEmpty
  · refine ⟨[], by simp [update_content_message, ha], fun p => rfl, fun p => rfl,
      fun p _ => rfl, fun p _ => ?_⟩
    simp [update_content_message, ha, createCount]
  · cases hm : c.content_message with
    | some i =>
      by_cases ho : w.oracle w.opCount
      · have h1 : (editMsg w .content c.process_id i
            (truncateContent c.accumulated_content) true true).1 = true := by
          simp [editMsg_fst, ho]
        refine ⟨[⟨.content, .edit, true, true, true, c.process_id, some i⟩], ?_, ?_, ?_, ?_, ?_⟩
        · simp [update_content_message, ha, hm, h1, editMsg_trace, ho]
        · intro p; exact createCount_edit _ _ _ _ _ _ _ _
        · intro p; exact createCount_edit _ _ _ _ _ _ _ _
        · intro p _; exact createCount_edit _ _ _ _ _ _ _ _
        · intro p _
          rw [createCount_edit]
          simp [update_content_message, ha, hm, h1]
      · have h1 : (editMsg w .content c.process_id i
            (truncateContent c.accumulated_content) true true).1 = false := by
          simp [editMsg_fst, ho]
        refine ⟨[⟨.content, .edit, true, true, false, c.process_id, some i⟩,
          ⟨.content, .edit, false, false,
            (editMsg w .content c.process_id i (truncateContent c.accumulated_content)
              true true).2.oracle
            (editMsg w .content c.process_id i (truncateContent c.accumulated_content)
              true true).2.opCount, c.process_id, some i⟩], ?_, ?_, ?_, ?_, ?_⟩
        · simp [update_content_message, ha, hm, h1, editMsg_trace, ho, List.append_assoc]
        · intro p; simp [createCount, isCreateOp]
        · intro p; simp [createCount, isCreateOp]
        · intro p _; simp [createCount, isCreateOp]
        · intro p _
          have hcc : createCount [(⟨.content, .edit, true, true, false, c.process_id, some i⟩ : OpLog),
            ⟨.content, .edit, false, false,
              (editMsg w .content c.process_id i (truncateContent c.accumulated_content)
                true true).2.oracle
              (editMsg w .content c.process_id i (truncateContent c.accumulated_content)
                true true).2.opCount, c.process_id, some i⟩] .content p = 0 := by
            simp [createCount, isCreateOp]
          rw [hcc]
          simp [update_content_message, ha, hm, h1]
    | none =>
      by_cases ho : w.oracle w.opCount
      · have h1 : (sendMsg w .content c.process_id
            (truncateContent c.accumulated_content) true true).1 = some w.nextId := by
          simp [sendMsg_fst, ho]
        obtain ⟨ds, hds, hds0⟩ := update_status_creates
          { c with content_message := some w.nextId, messages_sent := c.messages_sent + 1 }
          (sendMsg w .content c.process_id (truncateContent c.accumulated_content) true true).2
          (str "💬 **Streaming response...**")
        refine ⟨[⟨.content, .send, true, true, true, c.process_id, some w.nextId⟩] ++ ds,
          ?_, ?_, ?_, ?_, ?_⟩
        · simp [update_content_message, ha, hm, h1, hds, sendMsg_trace, ho, List.append_assoc]
        · intro p
          rw [createCount_append, createCount_send_ok, hds0]
          simp
        · intro p
          rw [createCount_append, createCount_send_ok, hds0]
          simp
        · intro p hp
          rw [createCount_append, createCount_send_ok, hds0]
          simp [hp]
        · intro p hp
          rw [createCount_append, createCount_send_ok, hds0]
          have hres : (update_content_message c w).1.content_message = some w.nextId := by
            simp [update_content_message, ha, hm, h1, update_status_fst]
          rw [hres]
          simp [hm, hp]
      · have h1 : (sendMsg w .content c.process_id
            (truncateContent c.accumulated_content) true true).1 = none := by
          simp [sendMsg_fst, ho]
        set w1 := (sendMsg w .content c.process_id
          (truncateContent c.accumulated_content) true true).2 with hw1
        have htr1 : w1.trace =
            w.trace ++ [⟨.content, .send, true, true, false, c.process_id, none⟩] := by
          rw [hw1, sendMsg_trace]
          simp [ho]
        have htr2 := sendMsg_trace w1 .content c.process_id
          (truncateContent c.accumulated_content) false false
        cases h2 : (sendMsg w1 .content c.process_id
            (truncateContent c.accumulated_content) false false).1 with
        | some j =>
          have hx : w1.oracle w1.opCount = true := by
            rw [sendMsg_fst] at h2
            by_cases hy : w1.oracle w1.opCount
            · exact hy
            · rw [if_neg hy] at h2
              exact absurd h2 (by simp)
          refine ⟨[⟨.content, .send, true, true, false, c.process_id, none⟩,
            ⟨.content, .send, false, false, w1.oracle w1.opCount, c.process_id,
              if w1.oracle w1.opCount then some w1.nextId else none⟩], ?_, ?_, ?_, ?_, ?_⟩
          · simp [update_content_message, ha, hm, h1, h2, htr2, htr1, List.append_assoc]
          · intro p
            rw [hx]
            simp [createCount, isCreateOp]
          · intro p
            rw [hx]
            simp [createCount, isCreateOp]
          · intro p hp
            rw [hx]
            simp [createCount, isCreateOp, hp]
          · intro p hp
            rw [hx]
            have hres : (update_content_message c w).1.content_message = some j := by
              simp [update_content_message, ha, hm, h1, h2]
            rw [hres]
            simp [createCount, isCreateOp, hm, hp]
        | none =>
          have hx : w1.oracle w1.opCount = false := by
            rw [sendMsg_fst] at h2
            by_cases hy : w1.oracle w1.opCount
            · rw [if_pos hy] at h2
              exact absurd h2 (by simp)
            · exact (by simpa using hy)
          refine ⟨[⟨.content, .send, true, true, false, c.process_id, none⟩,
            ⟨.content, .send, false, false, w1.oracle w1.opCount, c.process_id,
              if w1.oracle w1.opCount then some w1.nextId else none⟩], ?_, ?_, ?_, ?_, ?_⟩
          · simp [update_content_message, ha, hm, h1, h2, htr2, htr1, List.append_assoc]
          · intro p
            rw [hx]
            simp [createCount, isCreateOp]
          · intro p
            rw [hx]
            simp [createCount, isCreateOp]
          · intro p hp
            rw [hx]
            simp [createCount, isCreateOp]
          · intro p hp
            rw [hx]
            have hres : (update_content_message c w).1.content_message = none := by
              simp [update_content_message, ha, hm, h1, h2]
            rw [hres]
            simp [createCount, isCreateOp, hm]

theorem update_todo_display_creates (c : LiveStreamContext) (w : World) (t : List TodoItem) :
    ∃ dd : List OpLog, (update_todo_display c w t).2.1.trace = w.trace ++ dd ∧
      (∀ p, createCount dd .status p = 0) ∧
      (∀ p, createCount dd .content p = 0) ∧
      (∀ p, ¬c.process_id = some p → createCount dd .todo p = 0) ∧
      (∀ p, c.process_id = some p →
        createCount dd .todo p + (if c.todo_message.isSome then 1 else 0) =
          (if (update_todo_display c w t).1.todo_message.isSome then 1 else 0)) := by
  by_cases ht : t.isEmpty
  · refine ⟨[], by simp [update_todo_display, ht], fun p => rfl, fun p => rfl,
      fun p _ => rfl, fun p _ => ?_⟩
    simp [update_todo_display, ht, createCount]
  · cases hm : c.todo_message with
    | some i =>
      refine ⟨[⟨.todo, .edit, true, true, w.oracle w.opCount, c.process_id, some i⟩],
        ?_, ?_, ?_, ?_, ?_⟩
      · simp [update_todo_display, ht, hm, editMsg_trace]
      · intro p; exact createCount_edit _ _ _ _ _ _ _ _
      · intro p; exact createCount_edit _ _ _ _ _ _ _ _
      · intro p _; exact createCount_edit _ _ _ _ _ _ _ _
      · intro p _
        rw [createCount_edit]
        simp [update_todo_display, ht, hm]
    | none =>
      by_cases ho : w.oracle w.opCount
      · have h1 : (sendMsg w .todo c.process_id (renderTodoText t) true true).1 =
            some w.nextId := by
          simp [sendMsg_fst, ho]
        refine ⟨[⟨.todo, .send, true, true, true, c.process_id, some w.nextId⟩],
          ?_, ?_, ?_, ?_, ?_⟩
        · simp [update_todo_display, ht, hm, h1, sendMsg_trace, ho]
        · intro p
          rw [createCount_send_ok]
          simp
        · intro p
          rw [createCount_send_ok]
          simp
        · intro p hp
          rw [createCount_send_ok]
          simp [hp]
        · intro p hp
          rw [createCount_send_ok]
          have hres : (update_todo_display c w t).1.todo_message = some w.nextId := by
            simp [update_todo_display, ht, hm, h1]
          rw [hres]
          simp [hm, hp]
      · have h1 : (sendMsg w .todo c.process_id (renderTodoText t) true true).1 = none := by
          simp [sendMsg_fst, ho]
        refine ⟨[⟨.todo, .send, true, true, false, c.process_id, none⟩], ?_, ?_, ?_, ?_, ?_⟩
        · simp [update_todo_display, ht, hm, h1, sendMsg_trace, ho]
        · intro p; exact createCount_send_fail _ _ _ _ _ _ _
        · intro p; exact createCount_send_fail _ _ _ _ _ _ _
        · intro p _; exact createCount_send_fail _ _ _ _ _ _ _
        · intro p _
          rw [createCount_send_fail]
          have hres : (update_todo_display c w t).1.todo_message = none := by
            simp [update_todo_display, ht, hm, h1]
          rw [hres]
          simp [hm]

theorem toolCallStep_foldl_fields (cs : List ToolCall) (ns : List Str) (c : LiveStreamContext) :
    (cs.foldl toolCallStep (ns, c)).2.status_message = c.status_message ∧
    (cs.foldl toolCallStep (ns, c)).2.content_message = c.content_message ∧
    (cs.foldl toolCallStep (ns, c)).2.todo_message = c.todo_message ∧
    (cs.foldl toolCallStep (ns, c)).2.process_id = c.process_id := by
  induction cs generalizing ns c with
  | nil => exact ⟨rfl, rfl, rfl, rfl⟩
  | cons tc rest ih =>
    have hstep : List.foldl toolCallStep (ns, c) (tc :: rest) =
        List.foldl toolCallStep (toolCallStep (ns, c) tc) rest := rfl
    rw [hstep]
    have h1 := ih (toolCallStep (ns, c) tc).1 (toolCallStep (ns, c) tc).2
    simpa [toolCallStep] using h1

theorem handle_assistant_message_creates (c : LiveStreamContext) (w : World)
    (delta : Option Str) (now : ℚ) :
    ∃ dd : List OpLog, (handle_assistant_message c w delta now).2.1.trace = w.trace ++ dd ∧
      (∀ p, createCount dd .status p = 0) ∧
      (∀ p, ¬c.process_id = some p →
        createCount dd .content p = 0 ∧ createCount dd .todo p = 0) ∧
      (∀ p, c.process_id = some p →
        createCount dd .content p + (if c.content_message.isSome then 1 else 0) =
          (if (handle_assistant_message c w delta now).1.content_message.isSome then 1 else 0) ∧
        createCount dd .todo p + (if c.todo_message.isSome then 1 else 0) =
          (if (handle_assistant_message c w delta now).1.todo_message.isSome then 1 else 0)) ∧
      (handle_assistant_message c w delta now).1.status_message = c.status_message ∧
      (handle_assistant_message c w delta now).1.process_id = c.process_id := by
  cases delta with
  | none =>
    exact ⟨[], by simp [handle_assistant_message], fun p => rfl,
      fun p _ => ⟨rfl, rfl⟩, fun p _ => ⟨by simp [handle_assistant_message, createCount],
        by simp [handle_assistant_message, createCount]⟩, rfl, rfl⟩
  | some d =>
    by_cases hde : d.isEmpty
    · refine ⟨[], by simp [handle_assistant_message, hde], fun p => rfl,
        fun p _ => ⟨rfl, rfl⟩, fun p _ => ?_, by simp [handle_assistant_message, hde],
        by simp [handle_assistant_message, hde]⟩
      constructor <;> simp [handle_assistant_message, hde, createCount]
    · have hde2 : d.isEmpty = false := by simpa using hde
      simp only [handle_assistant_message, hde2, Bool.false_eq_true, if_false]
      by_cases hg : extract_todos (c.accumulated_content ++ d) ≠ [] ∧
          extract_todos (c.accumulated_content ++ d) ≠ c.current_todos
      · rw [if_pos hg]
        set ctxA : LiveStreamContext :=
          { c with accumulated_content := c.accumulated_content ++ d,
                   current_todos := extract_todos (c.accumulated_content ++ d) } with hctxA
        set step := update_todo_display ctxA w
          (extract_todos (c.accumulated_content ++ d)) with hstep
        obtain ⟨d1, hd1, hs1, hc1, ht1, te1⟩ :=
          update_todo_display_creates ctxA w (extract_todos (c.accumulated_content ++ d))
        have hfields := update_todo_display_fields ctxA w
          (extract_todos (c.accumulated_content ++ d))
        by_cases hr : step.2.2 = true
        · rw [if_pos hr]
          refine ⟨d1, hd1, hs1, ?_, ?_, hfields.2.2.2.2.1, hfields.2.2.2.2.2.1⟩
          · intro p hp
            exact ⟨(hc1 p), (ht1 p hp)⟩
          · intro p hp
            refine ⟨?_, ?_⟩
            · rw [hc1 p]
              rw [hfields.2.2.2.1]
              simp
            · exact te1 p hp
        · rw [if_neg hr]
          by_cases hf : shouldUpdateDecision step.1 now step.1.accumulated_content.length = true
          · rw [if_pos hf]
            obtain ⟨d2, hd2, hs2, ht2, hc2, ce2⟩ :=
              update_content_message_creates step.1 step.2.1
            have hucm := update_content_message_fields step.1 step.2.1
            refine ⟨d1 ++ d2, ?_, ?_, ?_, ?_, ?_, ?_⟩
            · dsimp only
              rw [hd2, hd1, List.append_assoc]
            · intro p
              rw [createCount_append, hs1, hs2]
            · intro p hp
              have hpA : ¬step.1.process_id = some p := by
                rw [hfields.2.2.2.2.2.1]
                exact hp
              constructor
              · rw [createCount_append, hc1 p, hc2 p hpA]
              · rw [createCount_append, ht1 p hp, (ht2 p)]
            · intro p hp
              have hpA : step.1.process_id = some p := by
                rw [hfields.2.2.2.2.2.1]
                exact hp
              constructor
              · rw [createCount_append, hc1 p]
                have hthis := ce2 p hpA
                rw [hfields.2.2.2.1] at hthis
                have e1 : ctxA.content_message = c.content_message := rfl
                rw [e1] at hthis
                dsimp only
                omega
              · rw [createCount_append, ht2 p]
                have hthis := te1 p hp
                have e2 : ctxA.todo_message = c.todo_message := rfl
                rw [e2] at hthis
                have e3 : (update_todo_display ctxA w
                    (extract_todos (c.accumulated_content ++ d))).1.todo_message =
                    step.1.todo_message := by rw [hstep]
                rw [e3] at hthis
                have htm : (update_content_message step.1 step.2.1).1.todo_message =
                    step.1.todo_message := hucm.2.2.2.1
                dsimp only
                rw [htm]
                omega
            · dsimp only
              rw [hucm.2.2.2.2.1, hfields.2.2.2.2.1]
            · dsimp only
              rw [hucm.2.2.2.2.2.2.1, hfields.2.2.2.2.2.1]
          · rw [if_neg hf]
            refine ⟨d1, hd1, hs1, ?_, ?_, hfields.2.2.2.2.1, hfields.2.2.2.2.2.1⟩
            · intro p hp
              exact ⟨hc1 p, ht1 p hp⟩
            · intro p hp
              refine ⟨?_, ?_⟩
              · rw [hc1 p, hfields.2.2.2.1]
                simp
              · exact te1 p hp
      · rw [if_neg hg]
        dsimp only
        simp only [Bool.false_eq_true, if_false]
        set ctx1 : LiveStreamContext :=
          { c with accumulated_content := c.accumulated_content ++ d } with hctx1
        by_cases hf : shouldUpdateDecision ctx1 now ctx1.accumulated_content.length = true
        · rw [if_pos hf]
          obtain ⟨d2, hd2, hs2, ht2, hc2, ce2⟩ := update_content_message_creates ctx1 w
          have hucm := update_content_message_fields ctx1 w
          refine ⟨d2, ?_, hs2, ?_, ?_, ?_, ?_⟩
          · dsimp only
            rw [hd2]
          · intro p hp
            exact ⟨hc2 p hp, ht2 p⟩
          · intro p hp
            constructor
            · have hthis := ce2 p hp
              have e4 : ctx1.content_message = c.content_message := rfl
              rw [e4] at hthis
              dsimp only
              omega
            · rw [ht2 p]
              have hgoal : (update_content_message ctx1 w).1.todo_message =
                  c.todo_message := hucm.2.2.2.1
              dsimp only
              rw [hgoal]
              omega
          · dsimp only
            rw [hucm.2.2.2.2.1]
          · dsimp only
            rw [hucm.2.2.2.2.2.2.1]
        · rw [if_neg hf]
          refine ⟨[], by simp, fun p => rfl, fun p _ => ⟨rfl, rfl⟩,
            fun p _ => ⟨by simp [createCount], by simp [createCount]⟩, rfl, rfl⟩

theorem handle_tool_calls_creates (c : LiveStreamContext) (w : World)
    (calls : Option (List ToolCall)) :
    ∃ dd : List OpLog, (handle_tool_calls c w calls).2.1.trace = w.trace ++ dd ∧
      (∀ sl p, createCount dd sl p = 0) ∧
      (handle_tool_calls c w calls).1.status_message = c.status_message ∧
      (handle_tool_calls c w calls).1.content_message = c.content_message ∧
      (handle_tool_calls c w calls).1.todo_message = c.todo_message ∧
      (handle_tool_calls c w calls).1.process_id = c.process_id := by
  cases calls with
  | none => exact ⟨[], by simp [handle_tool_calls], fun sl p => rfl, rfl, rfl, rfl, rfl⟩
  | some cs =>
    by_cases hcs : cs.isEmpty
    · refine ⟨[], ?_, fun sl p => rfl, ?_, ?_, ?_, ?_⟩ <;>
        simp [handle_tool_calls, hcs]
    · have hff := toolCallStep_foldl_fields cs [] c
      by_cases hns : (cs.foldl toolCallStep ([], c)).1.isEmpty
      · refine ⟨[], ?_, fun sl p => rfl, ?_, ?_, ?_, ?_⟩ <;>
          simp [handle_tool_calls, hcs, hns, hff.1, hff.2.1, hff.2.2.1, hff.2.2.2]
      · obtain ⟨ds, hds, hds0⟩ := update_status_creates (cs.foldl toolCallStep ([], c)).2 w
          (str "🔧 **Using tools:** " ++ (joinComma (cs.foldl toolCallStep ([], c)).1 ++
            str "\n\n_Working..._"))
        refine ⟨ds, ?_, hds0, ?_, ?_, ?_, ?_⟩ <;>
          simp [handle_tool_calls, hcs, hns, hds, update_status_fst,
            hff.1, hff.2.1, hff.2.2.1, hff.2.2.2]

theorem handle_error_creates (c : LiveStreamContext) (w : World) (u : StreamUpdate) :
    ∃ dd : List OpLog, (handle_error c w u).2.1.trace = w.trace ++ dd ∧
      (∀ p, createCount dd .status p = 0) ∧
      (∀ p, createCount dd .content p = 0) ∧
      (∀ p, createCount dd .todo p = 0) ∧
      (handle_error c w u).1.status_message = c.status_message ∧
      (handle_error c w u).1.content_message = c.content_message ∧
      (handle_error c w u).1.todo_message = c.todo_message ∧
      (handle_error c w u).1.process_id = c.process_id := by
  cases hres : (sendMsg w .error c.process_id
      (str "❌ **Error**\n\n" ++ errMsgOrDefault u (str "An error occurred")) true false).1 with
  | some i =>
    have ho : w.oracle w.opCount = true := by
      rw [sendMsg_fst] at hres
      by_cases hy : w.oracle w.opCount
      · exact hy
      · rw [if_neg hy] at hres
        exact absurd hres (by simp)
    refine ⟨[⟨.error, .send, true, false, w.oracle w.opCount, c.process_id,
      if w.oracle w.opCount then some w.nextId else none⟩], ?_, ?_, ?_, ?_, ?_, ?_, ?_, ?_⟩ <;>
      simp [handle_error, hres, sendMsg_trace, ho, createCount, isCreateOp]
  | none =>
    have ho : w.oracle w.opCount = false := by
      rw [sendMsg_fst] at hres
      by_cases hy : w.oracle w.opCount
      · rw [if_pos hy] at hres
        exact absurd hres (by simp)
      · simpa using hy
    refine ⟨[⟨.error, .send, true, false, w.oracle w.opCount, c.process_id,
      if w.oracle w.opCount then some w.nextId else none⟩], ?_, ?_, ?_, ?_, ?_, ?_, ?_, ?_⟩ <;>
      simp [handle_error, hres, sendMsg_trace, ho, createCount, isCreateOp]

theorem handle_progress_creates (c : LiveStreamContext) (w : World) (u : StreamUpdate) :
    ∃ dd : List OpLog, (handle_progress c w u).2.1.trace = w.trace ++ dd ∧
      (∀ sl p, createCount dd sl p = 0) ∧
      (handle_progress c w u).1 = c := by
  obtain ⟨ds, hds, hds0⟩ := update_status_creates c w
    (match u.progressPercentage with
      | none => str "🔄 **" ++ (match u.content with
          | some m => if m.isEmpty then str "Working..." else m
          | none => str "Working...") ++ str "**"
      | some p => str "🔄 **" ++ (match u.content with
          | some m => if m.isEmpty then str "Working..." else m
          | none => str "Working...") ++ str "**" ++ str "\n\n`" ++ progressBar p ++
          str "` " ++ intToStr p ++ str "%")
  exact ⟨ds, hds, hds0, update_status_fst c w _⟩

theorem dispatchUpdate_creates (c : LiveStreamContext) (w : World) (u : StreamUpdate)
    (now : ℚ) :
    ∃ dd : List OpLog, (dispatchUpdate c w u now).2.1.trace = w.trace ++ dd ∧
      (∀ p, createCount dd .status p = 0) ∧
      (∀ p, ¬c.process_id = some p →
        createCount dd .content p = 0 ∧ createCount dd .todo p = 0) ∧
      (∀ p, c.process_id = some p →
        createCount dd .content p + (if c.content_message.isSome then 1 else 0) =
          (if (dispatchUpdate c w u now).1.content_message.isSome then 1 else 0) ∧
        createCount dd .todo p + (if c.todo_message.isSome then 1 else 0) =
          (if (dispatchUpdate c w u now).1.todo_message.isSome then 1 else 0)) ∧
      (dispatchUpdate c w u now).1.status_message = c.status_message ∧
      (dispatchUpdate c w u now).1.process_id = c.process_id := by
  unfold dispatchUpdate
  split
  · exact handle_assistant_message_creates c w u.content now
  · split
    · obtain ⟨dd, h1, h2, h3, h4, h5, h6⟩ := handle_tool_calls_creates c w u.tool_calls
      refine ⟨dd, h1, fun p => h2 .status p, fun p _ => ⟨h2 .content p, h2 .todo p⟩,
        fun p _ => ?_, h3, h6⟩
      rw [h2 .content p, h2 .todo p, h4, h5]
      simp
    · split
      · by_cases hef : u.isErrorFlag
        · obtain ⟨ds, hds, hds0⟩ := update_status_creates c w
            (str "⚠️ **Tool error:** " ++ errMsgOrDefault u (str "None"))
          refine ⟨ds, by simp [handle_tool_result, hef, hds], fun p => hds0 .status p,
            fun p _ => ⟨hds0 .content p, hds0 .todo p⟩, fun p _ => ?_, ?_, ?_⟩
          · rw [hds0 .content p, hds0 .todo p]
            simp [handle_tool_result, hef, update_status_fst]
          · simp [handle_tool_result, hef, update_status_fst]
          · simp [handle_tool_result, hef, update_status_fst]
        · exact ⟨[], by simp [handle_tool_result, hef], fun p => rfl,
            fun p _ => ⟨rfl, rfl⟩,
            fun p _ => by simp [handle_tool_result, hef, createCount],
            by simp [handle_tool_result, hef], by simp [handle_tool_result, hef]⟩
      · split
        · obtain ⟨ds, hds, hds0, hfst⟩ := handle_progress_creates c w u
          refine ⟨ds, hds, fun p => hds0 .status p,
            fun p _ => ⟨hds0 .content p, hds0 .todo p⟩, fun p _ => ?_, ?_, ?_⟩
          · rw [hds0 .content p, hds0 .todo p, hfst]
            simp
          · rw [hfst]
          · rw [hfst]
        · split
          · obtain ⟨dd, h1, h2, h3, h4, h5, h6, h7, h8⟩ := handle_error_creates c w u
            refine ⟨dd, h1, h2, fun p _ => ⟨h3 p, h4 p⟩, fun p _ => ?_, h5, h8⟩
            rw [h3 p, h4 p, h6, h7]
            simp
          · exact ⟨[], by simp, fun p => rfl, fun p _ => ⟨rfl, rfl⟩,
              fun p _ => by simp [createCount], rfl, rfl⟩

theorem createCount_nil (sl : Slot) (p : Str) : createCount [] sl p = 0 := rfl

theorem createCount_cons_edit (sl1 : Slot) (md mk ok : Bool) (pd : Option Str)
    (tg : Option Nat) (tr : List OpLog) (sl : Slot) (p : Str) :
    createCount (⟨sl1, .edit, md, mk, ok, pd, tg⟩ :: tr) sl p = createCount tr sl p := by
  simp [createCount, isCreateOp, List.filter_cons]

theorem createCount_cons_clear (sl1 : Slot) (md mk ok : Bool) (pd : Option Str)
    (tg : Option Nat) (tr : List OpLog) (sl : Slot) (p : Str) :
    createCount (⟨sl1, .clearMarkup, md, mk, ok, pd, tg⟩ :: tr) sl p = createCount tr sl p := by
  simp [createCount, isCreateOp, List.filter_cons]

theorem finalizeTail_counts (cx : LiveStreamContext) (w1 : World) (ie : Bool)
    (sl : Slot) (p : Str) :
    createCount (finalizeTail cx w1 ie).trace sl p = createCount w1.trace sl p := by
  cases hc : cx.content_message <;> cases hs : cx.status_message <;>
    cases ht : cx.todo_message <;>
      simp [finalizeTail, hc, hs, ht, clearMarkupMsg_trace, editMsg_trace,
        createCount_append, createCount_clear, createCount_edit,
        createCount_cons_edit, createCount_cons_clear, createCount_nil]

theorem finalize_ctx_snd (c : LiveStreamContext) (w : World) (ie : Bool) :
    (finalize_ctx c w ie).2 =
      finalizeTail
        (if !c.accumulated_content.isEmpty then update_content_message c w else (c, w)).1
        (if !c.accumulated_content.isEmpty then update_content_message c w else (c, w)).2
        ie := rfl

theorem finalize_ctx_counts (c : LiveStreamContext) (w : World) (ie : Bool) :
    (∀ p, createCount (finalize_ctx c w ie).2.trace .status p =
        createCount w.trace .status p) ∧
    (∀ p, createCount (finalize_ctx c w ie).2.trace .todo p =
        createCount w.trace .todo p) ∧
    (∀ p, ¬c.process_id = some p →
      createCount (finalize_ctx c w ie).2.trace .content p =
        createCount w.trace .content p) ∧
    (∀ p, c.process_id = some p →
      createCount (finalize_ctx c w ie).2.trace .content p +
          (if c.content_message.isSome then 1 else 0) ≤
        createCount w.trace .content p + 1) := by
  have key := finalize_ctx_snd c w ie
  by_cases hb : c.accumulated_content.isEmpty
  · have hs1 : (if !c.accumulated_content.isEmpty then update_content_message c w
        else (c, w)) = (c, w) := by simp [hb]
    rw [hs1] at key
    refine ⟨fun p => ?_, fun p => ?_, fun p _ => ?_, fun p _ => ?_⟩
    · rw [key, finalizeTail_counts]
    · rw [key, finalizeTail_counts]
    · rw [key, finalizeTail_counts]
    · rw [key, finalizeTail_counts]
      have h2 : (if c.content_message.isSome then 1 else 0) ≤ 1 := by
        by_cases h3 : c.content_message.isSome <;> simp [h3]
      have h4 : ((c, w).2.trace : List OpLog) = w.trace := rfl
      rw [h4]
      omega
  · have hs1 : (if !c.accumulated_content.isEmpty then update_content_message c w
        else (c, w)) = update_content_message c w := by simp [hb]
    rw [hs1] at key
    obtain ⟨d1, hd1, hst, htd, hcu, hct⟩ := update_content_message_creates c w
    refine ⟨fun p => ?_, fun p => ?_, fun p hp => ?_, fun p hp => ?_⟩ <;>
      rw [key, finalizeTail_counts, hd1, createCount_append]
    · rw [hst p]
      omega
    · rw [htd p]
      omega
    · rw [hcu p hp]
      omega
    · have h5 := hct p hp
      have h6 : (if (update_content_message c w).1.content_message.isSome then 1 else 0) ≤ 1 := by
        by_cases h7 : (update_content_message c w).1.content_message.isSome <;> simp [h7]
      omega

theorem dispatchUpdate_pid (c : LiveStreamContext) (w : World) (u : StreamUpdate) (now : ℚ) :
    (dispatchUpdate c w u now).1.process_id = c.process_id := by
  obtain ⟨dd, _, _, _, _, _, h6⟩ := dispatchUpdate_creates c w u now
  exact h6

theorem registryTagged_applyAction (st : LiveStreamHandler × World) (a : HandlerAction)
    (hnd : (dictKeys st.1.active_streams).Nodup) (htg : registryTagged st.1) :
    registryTagged (applyAction st a).1 := by
  cases a with
  | start uid cid mid q =>
    intro r cr hget2
    by_cases ho : st.2.oracle st.2.opCount
    · simp only [applyAction, start_stream, sendMsg, ho, if_true, if_pos] at hget2
      by_cases hr : r = q
      · subst hr
        rw [dictGet_dictSet_self] at hget2
        have h3 := Option.some.inj hget2
        rw [← h3]
      · rw [dictGet_dictSet_ne r q _ _ (fun h => hr h.symm)] at hget2
        exact htg r cr hget2
    · simp only [applyAction, start_stream, sendMsg, ho, if_false, if_neg] at hget2
      exact htg r cr hget2
  | event q u now =>
    cases hget : dictGet q st.1.active_streams with
    | none =>
      intro r cr h2
      simp only [applyAction, handle_update, hget] at h2
      exact htg r cr h2
    | some cq =>
      by_cases hflag : cq.cancel_requested
      · intro r cr h2
        simp only [applyAction, handle_update, hget, hflag, if_true] at h2
        exact htg r cr h2
      · intro r cr h2
        simp only [applyAction, handle_update, hget, hflag, if_false, Bool.false_eq_true,
          if_neg] at h2
        by_cases hr : r = q
        · subst hr
          rw [dictGet_dictSet_self] at h2
          have h3 := Option.some.inj h2
          rw [← h3, dispatchUpdate_pid]
          exact htg r cq hget
        · rw [dictGet_dictSet_ne r q _ _ (fun h => hr h.symm)] at h2
          exact htg r cr h2
  | finalize q fm ie =>
    cases hget : dictGet q st.1.active_streams with
    | none =>
      intro r cr h2
      simp only [applyAction, finalize_stream, hget] at h2
      exact htg r cr h2
    | some cq =>
      intro r cr h2
      simp only [applyAction, finalize_stream, hget] at h2
      by_cases hr : r = q
      · subst hr
        rw [dictGet_dictRemove_self r _ hnd] at h2
        exact absurd h2 (by simp)
      · rw [dictGet_dictRemove_ne r q _ (fun h => hr h.symm)] at h2
        exact htg r cr h2
  | cancel q =>
    cases hget : dictGet q st.1.active_streams with
    | none =>
      intro r cr h2
      simp only [applyAction, request_cancel, hget] at h2
      exact htg r cr h2
    | some cq =>
      intro r cr h2
      simp only [applyAction, request_cancel, hget] at h2
      by_cases hr : r = q
      · subst hr
        rw [dictGet_dictSet_self] at h2
        have h3 := Option.some.inj h2
        rw [← h3]
        exact htg r cq hget
      · rw [dictGet_dictSet_ne r q _ _ (fun h => hr h.symm)] at h2
        exact htg r cr h2

theorem countsMatch_applyAction (st : LiveStreamHandler × World) (a : HandlerAction) (p : Str)
    (hnd : (dictKeys st.1.active_streams).Nodup) (htg : registryTagged st.1)
    (hns : startsSession p a = false) (hm : countsMatch p st) :
    countsMatch p (applyAction st a) := by
  cases a with
  | start uid cid mid q =>
    have hq : q ≠ p := by
      intro h
      subst h
      simp [startsSession] at hns
    by_cases ho : st.2.oracle st.2.opCount
    · have hreg : (applyAction st (.start uid cid mid q)).1.active_streams =
          dictSet q ({ user_id := uid, chat_id := cid, original_message_id := mid, process_id := some q, status_message := some st.2.nextId } : LiveStreamContext) st.1.active_streams := by
        simp [applyAction, start_stream, sendMsg, ho]
      have htrc : (applyAction st (.start uid cid mid q)).2.trace =
          st.2.trace ++ [⟨.status, .send, true, true, true, some q, some st.2.nextId⟩] := by
        simp [applyAction, start_stream, sendMsg, ho]
      have hcc : ∀ sl, createCount (applyAction st (.start uid cid mid q)).2.trace sl p =
          createCount st.2.trace sl p := by
        intro sl
        rw [htrc, createCount_append, createCount_send_ok]
        have hno : ¬(Slot.status = sl ∧ (some q : Option Str) = some p) := by
          rintro ⟨-, h2⟩
          exact hq (Option.some.inj h2)
        rw [if_neg hno]
        omega
      have hgp : dictGet p (applyAction st (.start uid cid mid q)).1.active_streams =
          dictGet p st.1.active_streams := by
        rw [hreg, dictGet_dictSet_ne p q _ _ hq]
      unfold countsMatch at hm ⊢
      simp only [hgp, hcc]
      exact hm
    · have hreg : (applyAction st (.start uid cid mid q)).1 = st.1 := by
        simp [applyAction, start_stream, sendMsg, ho]
      have htrc : (applyAction st (.start uid cid mid q)).2.trace =
          st.2.trace ++ [⟨.status, .send, true, true, false, some q, none⟩] := by
        simp [applyAction, start_stream, sendMsg, ho]
      have hcc : ∀ sl, createCount (applyAction st (.start uid cid mid q)).2.trace sl p =
          createCount st.2.trace sl p := by
        intro sl
        rw [htrc, createCount_append, createCount_send_fail]
        omega
      unfold countsMatch at hm ⊢
      simp only [hreg, hcc]
      exact hm
  | event q u now =>
    cases hget : dictGet q st.1.active_streams with
    | none =>
      have h1 : applyAction st (.event q u now) = (st.1, st.2) := by
        simp [applyAction, handle_update, hget]
      rw [h1]
      exact hm
    | some cq =>
      by_cases hflag : cq.cancel_requested
      · have h1 : applyAction st (.event q u now) = (st.1, st.2) := by
          simp [applyAction, handle_update, hget, hflag]
        rw [h1]
        exact hm
      · obtain ⟨dd, htr, h0s, hunt, htag, hsm, hpid⟩ := dispatchUpdate_creates cq st.2 u now
        have hreg : (applyAction st (.event q u now)).1.active_streams =
            dictSet q (dispatchUpdate cq st.2 u now).1 st.1.active_streams := by
          simp [applyAction, handle_update, hget, hflag]
        have htrc : (applyAction st (.event q u now)).2.trace = st.2.trace ++ dd := by
          have h2 : (applyAction st (.event q u now)).2 = (dispatchUpdate cq st.2 u now).2.1 := by
            simp [applyAction, handle_update, hget, hflag]
          rw [h2]
          exact htr
        have hcq := htg q cq hget
        by_cases hqp : q = p
        · subst hqp
          unfold countsMatch at hm
          rw [hget] at hm
          have hgp : dictGet q (applyAction st (.event q u now)).1.active_streams =
              some (dispatchUpdate cq st.2 u now).1 := by
            rw [hreg, dictGet_dictSet_self]
          unfold countsMatch
          simp only [hgp]
          refine ⟨?_, ?_, ?_⟩
          · rw [htrc, createCount_append, h0s q, hsm]
            have h3 := hm.1
            omega
          · rw [htrc, createCount_append]
            have h5 := (htag q hcq).1
            have h6 := hm.2.1
            omega
          · rw [htrc, createCount_append]
            have h5 := (htag q hcq).2
            have h6 := hm.2.2
            omega
        · have hgp : dictGet p (applyAction st (.event q u now)).1.active_streams =
              dictGet p st.1.active_streams := by
            rw [hreg, dictGet_dictSet_ne p q _ _ hqp]
          have hnp : ¬cq.process_id = some p := by
            rw [hcq]
            intro h
            exact hqp (Option.some.inj h)
          have hz := hunt p hnp
          have hcs : createCount (applyAction st (.event q u now)).2.trace .status p =
              createCount st.2.trace .status p := by
            rw [htrc, createCount_append, h0s p]
            omega
          have hc2 : createCount (applyAction st (.event q u now)).2.trace .content p =
              createCount st.2.trace .content p := by
            rw [htrc, createCount_append, hz.1]
            omega
          have hc3 : createCount (applyAction st (.event q u now)).2.trace .todo p =
              createCount st.2.trace .todo p := by
            rw [htrc, createCount_append, hz.2]
            omega
          unfold countsMatch at hm ⊢
          simp only [hgp, hcs, hc2, hc3]
          exact hm
  | finalize q fm ie =>
    cases hget : dictGet q st.1.active_streams with
    | none =>
      have h1 : applyAction st (.finalize q fm ie) = (st.1, st.2) := by
        simp [applyAction, finalize_stream, hget]
      rw [h1]
      exact hm
    | some cq =>
      obtain ⟨Fs, Ft, Fcu, Fct⟩ := finalize_ctx_counts cq st.2 ie
      have hreg : (applyAction st (.finalize q fm ie)).1.active_streams =
          dictRemove q st.1.active_streams := by
        simp [applyAction, finalize_stream, hget]
      have hw : (applyAction st (.finalize q fm ie)).2 = (finalize_ctx cq st.2 ie).2 := by
        simp [applyAction, finalize_stream, hget]
      have hcq := htg q cq hget
      by_cases hqp : q = p
      · subst hqp
        unfold countsMatch at hm
        rw [hget] at hm
        have hgp : dictGet q (applyAction st (.finalize q fm ie)).1.active_streams = none := by
          rw [hreg]
          exact dictGet_dictRemove_self q _ hnd
        unfold countsMatch
        simp only [hgp]
        refine ⟨?_, ?_, ?_⟩
        · rw [hw, Fs q]
          have h3 := hm.1
          have h9 : (if cq.status_message.isSome then 1 else 0) ≤ 1 := by
            by_cases h : cq.status_message.isSome <;> simp [h]
          omega
        · rw [hw]
          have h5 := Fct q hcq
          have h6 := hm.2.1
          omega
        · rw [hw, Ft q]
          have h3 := hm.2.2
          have h9 : (if cq.todo_message.isSome then 1 else 0) ≤ 1 := by
            by_cases h : cq.todo_message.isSome <;> simp [h]
          omega
      · have hgp : dictGet p (applyAction st (.finalize q fm ie)).1.active_streams =
            dictGet p st.1.active_streams := by
          rw [hreg, dictGet_dictRemove_ne p q _ hqp]
        have hnp : ¬cq.process_id = some p := by
          rw [hcq]
          intro h
          exact hqp (Option.some.inj h)
        have hcs : createCount (applyAction st (.finalize q fm ie)).2.trace .status p =
            createCount st.2.trace .status p := by
          rw [hw, Fs p]
        have hc2 : createCount (applyAction st (.finalize q fm ie)).2.trace .content p =
            createCount st.2.trace .content p := by
          rw [hw, Fcu p hnp]
        have hc3 : createCount (applyAction st (.finalize q fm ie)).2.trace .todo p =
            createCount st.2.trace .todo p := by
          rw [hw, Ft p]
        unfold countsMatch at hm ⊢
        simp only [hgp, hcs, hc2, hc3]
        exact hm
  | cancel q =>
    cases hget : dictGet q st.1.active_streams with
    | none =>
      have h1 : applyAction st (.cancel q) = (st.1, st.2) := by
        simp [applyAction, request_cancel, hget]
      rw [h1]
      exact hm
    | some cq =>
      have hreg : (applyAction st (.cancel q)).1.active_streams =
          dictSet q { cq with cancel_requested := true } st.1.active_streams := by
        simp [applyAction, request_cancel, hget]
      have hw : (applyAction st (.cancel q)).2 = st.2 := by
        simp [applyAction, request_cancel, hget]
      by_cases hqp : q = p
      · subst hqp
        unfold countsMatch at hm ⊢
        rw [hget] at hm
        have hgp : dictGet q (applyAction st (.cancel q)).1.active_streams =
            some { cq with cancel_requested := true } := by
          rw [hreg, dictGet_dictSet_self]
        simp only [hgp, hw]
        exact hm
      · have hgp : dictGet p (applyAction st (.cancel q)).1.active_streams =
            dictGet p st.1.active_streams := by
          rw [hreg, dictGet_dictSet_ne p q _ _ hqp]
        unfold countsMatch at hm ⊢
        simp only [hgp, hw]
        exact hm

theorem zeroCounts_applyAction (st : LiveStreamHandler × World) (a : HandlerAction) (p : Str)
    (htg : registryTagged st.1) (hns : startsSession p a = false)
    (hz : zeroCounts p st) : zeroCounts p (applyAction st a) := by
  cases a with
  | start uid cid mid q =>
    have hq : q ≠ p := by
      intro h
      subst h
      simp [startsSession] at hns
    by_cases ho : st.2.oracle st.2.opCount
    · have hreg : (applyAction st (.start uid cid mid q)).1.active_streams =
          dictSet q ({ user_id := uid, chat_id := cid, original_message_id := mid, process_id := some q, status_message := some st.2.nextId } : LiveStreamContext) st.1.active_streams := by
        simp [applyAction, start_stream, sendMsg, ho]
      have htrc : (applyAction st (.start uid cid mid q)).2.trace =
          st.2.trace ++ [⟨.status, .send, true, true, true, some q, some st.2.nextId⟩] := by
        simp [applyAction, start_stream, sendMsg, ho]
      have hcc : ∀ sl, createCount (applyAction st (.start uid cid mid q)).2.trace sl p =
          createCount st.2.trace sl p := by
        intro sl
        rw [htrc, createCount_append, createCount_send_ok]
        have hno : ¬(Slot.status = sl ∧ (some q : Option Str) = some p) := by
          rintro ⟨-, h2⟩
          exact hq (Option.some.inj h2)
        rw [if_neg hno]
        omega
      refine ⟨?_, ?_, ?_, ?_⟩
      · rw [hreg, dictGet_dictSet_ne p q _ _ hq]
        exact hz.1
      · rw [hcc]
        exact hz.2.1
      · rw [hcc]
        exact hz.2.2.1
      · rw [hcc]
        exact hz.2.2.2
    · have hreg : (applyAction st (.start uid cid mid q)).1 = st.1 := by
        simp [applyAction, start_stream, sendMsg, ho]
      have htrc : (applyAction st (.start uid cid mid q)).2.trace =
          st.2.trace ++ [⟨.status, .send, true, true, false, some q, none⟩] := by
        simp [applyAction, start_stream, sendMsg, ho]
      have hcc : ∀ sl, createCount (applyAction st (.start uid cid mid q)).2.trace sl p =
          createCount st.2.trace sl p := by
        intro sl
        rw [htrc, createCount_append, createCount_send_fail]
        omega
      refine ⟨?_, ?_, ?_, ?_⟩
      · rw [hreg]
        exact hz.1
      · rw [hcc]
        exact hz.2.1
      · rw [hcc]
        exact hz.2.2.1
      · rw [hcc]
        exact hz.2.2.2
  | event q u now =>
    cases hget : dictGet q st.1.active_streams with
    | none =>
      have h1 : applyAction st (.event q u now) = (st.1, st.2) := by
        simp [applyAction, handle_update, hget]
      rw [h1]
      exact hz
    | some cq =>
      have hqp : q ≠ p := by
        intro h
        subst h
        rw [hz.1] at hget
        exact Option.noConfusion hget
      by_cases hflag : cq.cancel_requested
      · have h1 : applyAction st (.event q u now) = (st.1, st.2) := by
          simp [applyAction, handle_update, hget, hflag]
        rw [h1]
        exact hz
      · obtain ⟨dd, htr, h0s, hunt, htag, hsm, hpid⟩ := dispatchUpdate_creates cq st.2 u now
        have hreg : (applyAction st (.event q u now)).1.active_streams =
            dictSet q (dispatchUpdate cq st.2 u now).1 st.1.active_streams := by
          simp [applyAction, handle_update, hget, hflag]
        have htrc : (applyAction st (.event q u now)).2.trace = st.2.trace ++ dd := by
          have h2 : (applyAction st (.event q u now)).2 = (dispatchUpdate cq st.2 u now).2.1 := by
            simp [applyAction, handle_update, hget, hflag]
          rw [h2]
          exact htr
        have hnp : ¬cq.process_id = some p := by
          rw [htg q cq hget]
          intro h
          exact hqp (Option.some.inj h)
        have huz := hunt p hnp
        refine ⟨?_, ?_, ?_, ?_⟩
        · rw [hreg, dictGet_dictSet_ne p q _ _ hqp]
          exact hz.1
        · rw [htrc, createCount_append, h0s p, hz.2.1]
        · rw [htrc, createCount_append, huz.1, hz.2.2.1]
        · rw [htrc, createCount_append, huz.2, hz.2.2.2]
  | finalize q fm ie =>
    cases hget : dictGet q st.1.active_streams with
    | none =>
      have h1 : applyAction st (.finalize q fm ie) = (st.1, st.2) := by
        simp [applyAction, finalize_stream, hget]
      rw [h1]
      exact hz
    | some cq =>
      have hqp : q ≠ p := by
        intro h
        subst h
        rw [hz.1] at hget
        exact Option.noConfusion hget
      obtain ⟨Fs, Ft, Fcu, Fct⟩ := finalize_ctx_counts cq st.2 ie
      have hreg : (applyAction st (.finalize q fm ie)).1.active_streams =
          dictRemove q st.1.active_streams := by
        simp [applyAction, finalize_stream, hget]
      have hw : (applyAction st (.finalize q fm ie)).2 = (finalize_ctx cq st.2 ie).2 := by
        simp [applyAction, finalize_stream, hget]
      have hnp : ¬cq.process_id = some p := by
        rw [htg q cq hget]
        intro h
        exact hqp (Option.some.inj h)
      refine ⟨?_, ?_, ?_, ?_⟩
      · rw [hreg, dictGet_dictRemove_ne p q _ hqp]
        exact hz.1
      · rw [hw, Fs p]
        exact hz.2.1
      · rw [hw, Fcu p hnp]
        exact hz.2.2.1
      · rw [hw, Ft p]
        exact hz.2.2.2
  | cancel q =>
    cases hget : dictGet q st.1.active_streams with
    | none =>
      have h1 : applyAction st (.cancel q) = (st.1, st.2) := by
        simp [applyAction, request_cancel, hget]
      rw [h1]
      exact hz
    | some cq =>
      have hqp : q ≠ p := by
        intro h
        subst h
        rw [hz.1] at hget
        exact Option.noConfusion hget
      have hreg : (applyAction st (.cancel q)).1.active_streams =
          dictSet q { cq with cancel_requested := true } st.1.active_streams := by
        simp [applyAction, request_cancel, hget]
      have hw : (applyAction st (.cancel q)).2 = st.2 := by
        simp [applyAction, request_cancel, hget]
      refine ⟨?_, ?_, ?_, ?_⟩
      · rw [hreg, dictGet_dictSet_ne p q _ _ hqp]
        exact hz.1
      · rw [hw]
        exact hz.2.1
      · rw [hw]
        exact hz.2.2.1
      · rw [hw]
        exact hz.2.2.2

theorem zeroCounts_start (st : LiveStreamHandler × World) (uid cid mid : Nat) (p : Str)
    (hz : zeroCounts p st) :
    zeroCounts p (applyAction st (.start uid cid mid p)) ∨
      countsMatch p (applyAction st (.start uid cid mid p)) := by
  by_cases ho : st.2.oracle st.2.opCount
  · right
    have hreg : (applyAction st (.start uid cid mid p)).1.active_streams =
        dictSet p ({ user_id := uid, chat_id := cid, original_message_id := mid, process_id := some p, status_message := some st.2.nextId } : LiveStreamContext) st.1.active_streams := by
      simp [applyAction, start_stream, sendMsg, ho]
    have htrc : (applyAction st (.start uid cid mid p)).2.trace =
        st.2.trace ++ [⟨.status, .send, true, true, true, some p, some st.2.nextId⟩] := by
      simp [applyAction, start_stream, sendMsg, ho]
    have hgp : dictGet p (applyAction st (.start uid cid mid p)).1.active_streams =
        some ({ user_id := uid, chat_id := cid, original_message_id := mid, process_id := some p, status_message := some st.2.nextId } : LiveStreamContext) := by
      rw [hreg, dictGet_dictSet_self]
    unfold countsMatch
    simp only [hgp]
    refine ⟨?_, ?_, ?_⟩
    · rw [htrc, createCount_append, createCount_send_ok, if_pos ⟨rfl, rfl⟩, hz.2.1]
      simp
    · rw [htrc, createCount_append, createCount_send_ok,
        if_neg (fun h => Slot.noConfusion h.1), hz.2.2.1]
      simp
    · rw [htrc, createCount_append, createCount_send_ok,
        if_neg (fun h => Slot.noConfusion h.1), hz.2.2.2]
      simp
  · left
    have hreg : (applyAction st (.start uid cid mid p)).1 = st.1 := by
      simp [applyAction, start_stream, sendMsg, ho]
    have htrc : (applyAction st (.start uid cid mid p)).2.trace =
        st.2.trace ++ [⟨.status, .send, true, true, false, some p, none⟩] := by
      simp [applyAction, start_stream, sendMsg, ho]
    have hcc : ∀ sl, createCount (applyAction st (.start uid cid mid p)).2.trace sl p =
        createCount st.2.trace sl p := by
      intro sl
      rw [htrc, createCount_append, createCount_send_fail]
      omega
    refine ⟨?_, ?_, ?_, ?_⟩
    · rw [hreg]
      exact hz.1
    · rw [hcc]
      exact hz.2.1
    · rw [hcc]
      exact hz.2.2.1
    · rw [hcc]
      exact hz.2.2.2

theorem zeroCounts_countsMatch (p : Str) (st : LiveStreamHandler × World)
    (hz : zeroCounts p st) : countsMatch p st := by
  unfold countsMatch
  simp only [hz.1]
  refine ⟨?_, ?_, ?_⟩
  · rw [hz.2.1]
    omega
  · rw [hz.2.2.1]
    omega
  · rw [hz.2.2.2]
    omega

theorem startCount_cons (p : Str) (a : HandlerAction) (as : List HandlerAction) :
    startCount p (a :: as) = (if startsSession p a then 1 else 0) + startCount p as := by
  by_cases h : startsSession p a
  · simp [startCount, List.filter_cons, h]
    omega
  · simp [startCount, List.filter_cons, h]

theorem runActions_cons (st : LiveStreamHandler × World) (a : HandlerAction)
    (as : List HandlerAction) : runActions st (a :: as) = runActions (applyAction st a) as := rfl

theorem countsMatch_runActions (p : Str) (as : List HandlerAction) :
    ∀ st : LiveStreamHandler × World, (dictKeys st.1.active_streams).Nodup →
      registryTagged st.1 → countsMatch p st → startCount p as = 0 →
      countsMatch p (runActions st as) := by
  induction as with
  | nil =>
    intro st _ _ hm2 _
    exact hm2
  | cons a as ih =>
    intro st hnd htg hm2 h0
    rw [startCount_cons] at h0
    have hsa : startsSession p a = false := by
      by_cases h : startsSession p a
      · rw [if_pos h] at h0
        omega
      · simpa using h
    have h0a : startCount p as = 0 := by
      simp [hsa] at h0
      exact h0
    rw [runActions_cons]
    exact ih (applyAction st a) (nodup_applyAction st a hnd)
      (registryTagged_applyAction st a hnd htg)
      (countsMatch_applyAction st a p hnd htg hsa hm2) h0a

theorem zeroCounts_runActions (p : Str) (as : List HandlerAction) :
    ∀ st : LiveStreamHandler × World, (dictKeys st.1.active_streams).Nodup →
      registryTagged st.1 → zeroCounts p st → startCount p as ≤ 1 →
      countsMatch p (runActions st as) := by
  induction as with
  | nil =>
    intro st _ _ hz _
    exact zeroCounts_countsMatch p st hz
  | cons a as ih =>
    intro st hnd htg hz h1
    rw [startCount_cons] at h1
    rw [runActions_cons]
    by_cases hsa : startsSession p a
    · rw [if_pos hsa] at h1
      have h0 : startCount p as = 0 := by omega
      cases a with
      | start uid cid mid q =>
        have hq : q = p := by simpa [startsSession] using hsa
        subst hq
        rcases zeroCounts_start st uid cid mid q hz with hz2 | hm2
        · exact ih (applyAction st (.start uid cid mid q))
            (nodup_applyAction st (.start uid cid mid q) hnd)
            (registryTagged_applyAction st (.start uid cid mid q) hnd htg) hz2 (by omega)
        · exact countsMatch_runActions q as (applyAction st (.start uid cid mid q))
            (nodup_applyAction st (.start uid cid mid q) hnd)
            (registryTagged_applyAction st (.start uid cid mid q) hnd htg) hm2 h0
      | event q u now => simp [startsSession] at hsa
      | finalize q fm ie => simp [startsSession] at hsa
      | cancel q => simp [startsSession] at hsa
    · have hsa2 : startsSession p a = false := by simpa using hsa
      rw [if_neg hsa] at h1
      exact ih (applyAction st a) (nodup_applyAction st a hnd)
        (registryTagged_applyAction st a hnd htg)
        (zeroCounts_applyAction st a p htg hsa2 hz) (by omega)

/-- **C9.** Per-session slot-creation invariant: over any whole lifetime of
the public surface (`start_stream`, `handle_update`, `finalize_stream`,
`request_cancel` in any order, under any sink-failure oracle), a session id
that is started at most once successfully creates at most one status
message, at most one content message and at most one todo message; while
the session is registered the creation counts equal the slot occupancy of
its stored handles (create-if-absent-else-edit), so later updates to an
occupied slot are edits of the stored handle, never new sends. -/
theorem slot_creation_at_most_once (oracle : Nat → Bool) (as : List HandlerAction)
    (p : Str) (h : startCount p as ≤ 1) :
    createCount (runActions (⟨[]⟩, mkWorld oracle) as).2.trace .status p ≤ 1 ∧
    createCount (runActions (⟨[]⟩, mkWorld oracle) as).2.trace .content p ≤ 1 ∧
    createCount (runActions (⟨[]⟩, mkWorld oracle) as).2.trace .todo p ≤ 1 := by
  have h0 : zeroCounts p (⟨[]⟩, mkWorld oracle) := ⟨rfl, rfl, rfl, rfl⟩
  have hnd : (dictKeys (⟨[]⟩ : LiveStreamHandler).active_streams).Nodup := List.nodup_nil
  have htg : registryTagged (⟨[]⟩ : LiveStreamHandler) := by
    intro q cx hq
    exact absurd hq (by simp [dictGet])
  have hm := zeroCounts_runActions p as (⟨[]⟩, mkWorld oracle) hnd htg h0 h
  unfold countsMatch at hm
  cases hget : dictGet p (runActions (⟨[]⟩, mkWorld oracle) as).1.active_streams with
  | none =>
    rw [hget] at hm
    exact hm
  | some cx =>
    rw [hget] at hm
    refine ⟨?_, ?_, ?_⟩
    · rw [hm.1]
      by_cases h2 : cx.status_message.isSome <;> simp [h2]
    · rw [hm.2.1]
      by_cases h2 : cx.content_message.isSome <;> simp [h2]
    · rw [hm.2.2]
      by_cases h2 : cx.todo_message.isSome <;> simp [h2]

theorem slot_creation_at_most_once_witness :
    startCount (str "p") [HandlerAction.start 0 0 0 (str "p"),
      HandlerAction.event (str "p") { type := str "assistant", content := some (str "hi") } 1,
      HandlerAction.finalize (str "p") (str "") false] ≤ 1 ∧
    (createCount (runActions (⟨[]⟩, mkWorld (fun _ => true))
        [HandlerAction.start 0 0 0 (str "p"),
         HandlerAction.event (str "p") { type := str "assistant", content := some (str "hi") } 1,
         HandlerAction.finalize (str "p") (str "") false]).2.trace .status (str "p") ≤ 1 ∧
      createCount (runActions (⟨[]⟩, mkWorld (fun _ => true))
        [HandlerAction.start 0 0 0 (str "p"),
         HandlerAction.event (str "p") { type := str "assistant", content := some (str "hi") } 1,
         HandlerAction.finalize (str "p") (str "") false]).2.trace .content (str "p") ≤ 1 ∧
      createCount (runActions (⟨[]⟩, mkWorld (fun _ => true))
        [HandlerAction.start 0 0 0 (str "p"),
         HandlerAction.event (str "p") { type := str "assistant", content := some (str "hi") } 1,
         HandlerAction.finalize (str "p") (str "") false]).2.trace .todo (str "p") ≤ 1) :=
  ⟨by decide, slot_creation_at_most_once (fun _ => true)
    [HandlerAction.start 0 0 0 (str "p"),
     HandlerAction.event (str "p") { type := str "assistant", content := some (str "hi") } 1,
     HandlerAction.finalize (str "p") (str "") false] (str "p") (by decide)⟩
